import Mathlib

/-!
Verification of the Matup backend core against its specification.

The definitions below are shallow embeddings of the repository's TypeScript
source: the schedule generator (`fixture-schedule.service`), the standings
aggregator (`league-standings` ranking functions), and the result-workflow /
session route handlers (`routes/fixtures.ts`, `routes/sessions.ts`, the
running-session upsert route).  JavaScript numbers are modelled as exact
rationals (`ℚ`), JSON values as the inductive `JVal`, and the persistent
store as explicit record lists threaded through each operation.
-/

/-! ## Schedule generator (fixture-schedule.service)

`generateSinglesSchedule(memberIds, weeks)` builds the circle-method round
robin: pad an odd roster with a synthetic `BYE` entry, then for each week
rotate all positions except position 0 by `(week-1) mod (count-1)` and pair
position `i` with position `count-1-i`, dropping pairings that touch `BYE`.
-/

structure ScheduledFixture where
  weekNumber : Nat
  sideA : List String
  sideB : List String
deriving DecidableEq, Repr

/-- `ids` after the odd-roster `BYE` padding step of `generateSinglesSchedule`. -/
def padRoster (memberIds : List String) : List String :=
  if memberIds.length % 2 ≠ 0 then memberIds ++ ["BYE"] else memberIds

/-- The `rotated` array built inside the week loop of `generateSinglesSchedule`:
`rotated[0] = ids[0]` and `rotated[i] = ids[((i - 1 + roundIndex) % (count - 1)) + 1]`
for `1 ≤ i < count`. -/
def rotatedIds (ids : List String) (roundIndex : Nat) : List String :=
  (List.range ids.length).map fun i =>
    if i = 0 then ids.getD 0 ""
    else ids.getD ((i - 1 + roundIndex) % (ids.length - 1) + 1) ""

/-- One week's fixtures of `generateSinglesSchedule`: pair `rotated[i]` with
`rotated[count - 1 - i]` for `0 ≤ i < count / 2`, skipping `BYE` pairings. -/
def weekPairs (ids : List String) (week : Nat) : List ScheduledFixture :=
  let count := ids.length
  let rotated := rotatedIds ids ((week - 1) % (count - 1))
  (List.range (count / 2)).filterMap fun i =>
    let a := rotated.getD i ""
    let b := rotated.getD (count - 1 - i) ""
    if a = "BYE" ∨ b = "BYE" then none
    else some ⟨week, [a], [b]⟩

/-- Embedding of `generateSinglesSchedule` (fixture-schedule service). -/
def generateSinglesSchedule (memberIds : List String) (weeks : Nat) :
    List ScheduledFixture :=
  let ids := padRoster memberIds
  (List.range weeks).flatMap fun wk => weekPairs ids (wk + 1)

/-! ### Positional analysis of the circle method -/

/-- Roster position paired on side A in round `r` at pairing index `i`
(`n` is the padded roster size). -/
def posA (n r i : Nat) : Nat := if i = 0 then 0 else (i - 1 + r) % (n - 1) + 1

/-- Roster position paired on side B in round `r` at pairing index `i`. -/
def posB (n r i : Nat) : Nat := (n - 2 - i + r) % (n - 1) + 1

/-- The unordered pair of roster positions matched in round `r` at index `i`. -/
def pairAt (n r i : ℕ) : Finset ℕ := {posA n r i, posB n r i}

/-- All position pairs produced over one full rotation cycle of the circle
method on a padded roster of size `n`. -/
def cyclePairs (n : ℕ) : List (Finset ℕ) :=
  (List.range (n - 1)).flatMap fun r => (List.range (n / 2)).map (pairAt n r)

/-! ## Standings aggregator (ranking service)

Embeddings of `calculateStandings` (the `individual_time` /
`personal_progress` branch) and `calculateTeamStandings`.  JavaScript
numbers are exact rationals; `Array.prototype.sort` (stable, comparator
`cmp`) is modelled by a stable insertion sort on the predicate
`cmp(a,b) <= 0`; `Number(x.toFixed(2))` rounds half away from zero at the
second decimal, matching Mathlib `round` (half-up) on rationals;
`Math.round` is `round`.
-/

structure RankingMatch where
  id : String
  status : String
  week_number : Option Int
  winner : Option String
deriving DecidableEq, Repr

structure RankingParticipant where
  match_id : String
  user_id : String
  team : Option String
  score : Option ℚ
  time_seconds : Option ℚ
  distance_meters : Option ℚ
  points : Option ℚ
deriving DecidableEq, Repr

structure RankingMember where
  user_id : String
  name : Option String
  avatar_url : Option String
deriving DecidableEq, Repr

structure Standing where
  user_id : String
  name : Option String
  avatar_url : Option String
  rank : Nat
  played : Nat
  wins : Nat
  draws : Nat
  losses : Nat
  points : ℚ
  goalDifference : ℚ
  totalTime : ℚ
  totalPoints : ℚ
deriving DecidableEq, Repr

structure TeamStanding where
  team_key : String
  player_ids : List String
  player_names : List String
  rank : Nat
  played : Nat
  wins : Nat
  losses : Nat
  winPct : Int
deriving DecidableEq, Repr

/-- Stable insertion into a sorted list: `a` goes before the first element
`b` with `le a b`.  Together with `jsSortBy` this reproduces the (stable)
result of `Array.prototype.sort` for the total preorder `le = (cmp <= 0)`. -/
def jsInsert {a : Type} (le : a → a → Bool) (x : a) : List a → List a
  | [] => [x]
  | b :: l => if le x b then x :: b :: l else b :: jsInsert le x l

/-- Stable sort by the boolean preorder `le` (model of `Array.sort(cmp)`). -/
def jsSortBy {a : Type} (le : a → a → Bool) : List a → List a
  | [] => []
  | x :: l => jsInsert le x (jsSortBy le l)

/-- `standings.forEach((s, i) => { s.rank = i + 1 })`. -/
def assignRanks (l : List Standing) : List Standing :=
  l.mapIdx fun i s => { s with rank := i + 1 }

def assignTeamRanks (l : List TeamStanding) : List TeamStanding :=
  l.mapIdx fun i s => { s with rank := i + 1 }

/-- `Math.round` on an exact rational (half rounds toward `+`∞, like
Mathlib's `round`; see `jsRound_eq_round`), written over the reduced
numerator and denominator so that the kernel can evaluate it. -/
def jsRound (q : ℚ) : ℤ := (2 * q.num + q.den) / (2 * (q.den : ℤ))

/-- `Number(x.toFixed(2))` on an exact rational (`toFixed` breaks ties
upward, like `Math.round`). -/
def round2 (q : ℚ) : ℚ := (jsRound (q * 100) : ℤ) / 100

/-- Lexicographic order on character lists by code point, the order of the
argumentless `Array.prototype.sort` on strings.  (JS compares UTF-16 code
units; this differs from code-point order only across surrogate pairs.) -/
def charsLe : List Char → List Char → Bool
  | [], _ => true
  | _ :: _, [] => false
  | a :: as, b :: bs =>
      if a.toNat < b.toNat then true
      else if b.toNat < a.toNat then false
      else charsLe as bs

/-- The argumentless-JS-sort string order. -/
def strLe (a b : String) : Bool := charsLe a.data b.data

/-- `Number.MAX_SAFE_INTEGER`. -/
def maxSafeInteger : Int := 2 ^ 53 - 1

/-! ### `individual_time` / `personal_progress` branch of `calculateStandings` -/

/-- One entry of the per-user `runsByUser` arrays. -/
structure PaceRun where
  week : Int
  paceSecondsPerKm : ℚ
  elapsedSeconds : ℚ
deriving DecidableEq, Repr

/-- The `weekByMatchId` map: built by successive `Map.set` over the
completed matches (`week_number ?? MAX_SAFE_INTEGER`, later entries win),
with lookup defaulting to `MAX_SAFE_INTEGER`. -/
def weekByMatchId (completedMatches : List RankingMatch) : String → Int :=
  completedMatches.foldl
    (fun acc m => fun x => if x = m.id then m.week_number.getD maxSafeInteger else acc x)
    (fun _ => maxSafeInteger)

/-- `matches.filter((m) => m.status === 'completed')`. -/
def completedOf (ms : List RankingMatch) : List RankingMatch :=
  ms.filter fun m => m.status == "completed"

/-- Participants whose match id is among the completed matches. -/
def relevantOf (ms : List RankingMatch) (participants : List RankingParticipant) :
    List RankingParticipant :=
  participants.filter fun p => ((completedOf ms).map (·.id)).contains p.match_id

/-- The effective distance of a run:
`participant.distance_meters && participant.distance_meters > 0 ? ... : 1000`. -/
def effDistance (p : RankingParticipant) : ℚ :=
  match p.distance_meters with
  | some d => if 0 < d then d else 1000
  | none => 1000

/-- The run a participant row contributes, if any: skip null times, compute
the pace, and skip non-positive paces.  (The `Number.isFinite(pace)` guard
of the source can never fire on exact rationals with a positive divisor.) -/
def runOf (ms : List RankingMatch) (p : RankingParticipant) : Option PaceRun :=
  match p.time_seconds with
  | none => none
  | some t =>
      let pace := t / (effDistance p / 1000)
      if pace ≤ 0 then none
      else some ⟨weekByMatchId (completedOf ms) p.match_id, pace, t⟩

/-- One iteration of the `runsByUser` loop: push the surviving run onto the
submitting user's array. -/
def runStep (ms : List RankingMatch) (acc : String → List PaceRun)
    (p : RankingParticipant) : String → List PaceRun :=
  match runOf ms p with
  | none => acc
  | some run => fun u => if u = p.user_id then acc u ++ [run] else acc u

/-- The `runsByUser` per-user arrays, built by one pass over the relevant
participants. -/
def runsByUser (ms : List RankingMatch) (participants : List RankingParticipant) :
    String → List PaceRun :=
  (relevantOf ms participants).foldl (runStep ms) (fun _ => [])

/-- Comparator `a.week === b.week ? a.elapsedSeconds - b.elapsedSeconds
: a.week - b.week`, as the predicate `cmp(a,b) <= 0`. -/
def weekElapsedLe (a b : PaceRun) : Bool :=
  if a.week = b.week then decide (a.elapsedSeconds ≤ b.elapsedSeconds)
  else decide (a.week ≤ b.week)

/-- The per-member standing entry computed in the `personal_progress`
branch (consecutive-run improvement percentages over the sorted run list). -/
def progressEntry (runsOf : String → List PaceRun) (member : RankingMember) :
    Standing :=
  let runs := jsSortBy weekElapsedLe (runsOf member.user_id)
  let pairs := runs.zip runs.tail
  let improvement := fun (pr : PaceRun × PaceRun) =>
    (pr.1.paceSecondsPerKm - pr.2.paceSecondsPerKm) / pr.1.paceSecondsPerKm * 100
  let totalImprovementPercent := (pairs.map improvement).sum
  let comparisons := pairs.length
  let improvementCount := pairs.countP fun pr => decide (0 < improvement pr)
  let regressionCount := pairs.countP fun pr => decide (improvement pr < 0)
  let normalizedImprovement :=
    if 0 < comparisons then round2 totalImprovementPercent else 0
  { user_id := member.user_id
    name := member.name
    avatar_url := member.avatar_url
    rank := 0
    played := runs.length
    wins := improvementCount
    draws := 0
    losses := regressionCount
    points := normalizedImprovement
    goalDifference := 0
    totalTime := (runs.map (·.elapsedSeconds)).sum
    totalPoints := normalizedImprovement }

/-- The `personal_progress` sort chain (`points` desc, `wins` desc, `played`
desc, `totalTime` asc) as the predicate `cmp(a,b) <= 0`. -/
def ppLe (a b : Standing) : Bool :=
  if a.points = b.points then
    if a.wins = b.wins then
      if a.played = b.played then decide (a.totalTime ≤ b.totalTime)
      else decide (b.played < a.played)
    else decide (b.wins < a.wins)
  else decide (b.points < a.points)

/-- Embedding of the `individual_time` + `personal_progress` branch of
`calculateStandings` (ranking service). -/
def personalProgressStandings (ms : List RankingMatch)
    (participants : List RankingParticipant) (members : List RankingMember) :
    List Standing :=
  assignRanks (jsSortBy ppLe
    (members.map (progressEntry (runsByUser ms participants))))

/-! ### `calculateTeamStandings` (doubles team aggregation) -/

structure TeamStat where
  player_ids : List String
  played : Nat
  wins : Nat
  losses : Nat
deriving DecidableEq, Repr

/-- JS truthiness of `match.winner` (`if (!match.winner) continue`). -/
def winnerTruthy (m : RankingMatch) : Bool :=
  match m.winner with
  | none => false
  | some w => w != ""

/-- Sorted side-A user ids of a match (`.filter(team === 'A').map(user_id).sort()`);
the argumentless JS sort is lexicographic. -/
def sideAIds (relevant : List RankingParticipant) (m : RankingMatch) : List String :=
  jsSortBy strLe
    (((relevant.filter fun p => p.match_id == m.id).filter
        fun p => p.team == some "A").map (·.user_id))

def sideBIds (relevant : List RankingParticipant) (m : RankingMatch) : List String :=
  jsSortBy strLe
    (((relevant.filter fun p => p.match_id == m.id).filter
        fun p => p.team == some "B").map (·.user_id))

/-- `ids.join('+')`. -/
def teamKey (ids : List String) : String := String.intercalate "+" ids

/-- `!stats[key]` guard plus creation `stats[key] = {player_ids, 0, 0, 0}`
(JS object: new keys append in insertion order). -/
def ensureTeamKey (stats : List (String × TeamStat)) (k : String)
    (ids : List String) : List (String × TeamStat) :=
  if stats.any (fun kv => kv.1 == k) then stats
  else stats ++ [(k, ⟨ids, 0, 0, 0⟩)]

/-- An in-place `stats[key].field += 1` update. -/
def bumpTeam (stats : List (String × TeamStat)) (k : String)
    (f : TeamStat → TeamStat) : List (String × TeamStat) :=
  stats.map fun kv => if kv.1 == k then (kv.1, f kv.2) else kv

/-- The per-match body of the `calculateTeamStandings` accumulation loop. -/
def teamMatchUpdate (relevant : List RankingParticipant)
    (stats : List (String × TeamStat)) (m : RankingMatch) :
    List (String × TeamStat) :=
  if ¬ winnerTruthy m then stats
  else
    let sa := sideAIds relevant m
    let sb := sideBIds relevant m
    if sa.length < 2 ∨ sb.length < 2 then stats
    else
      let ka := teamKey sa
      let kb := teamKey sb
      let s2 := ensureTeamKey (ensureTeamKey stats ka sa) kb sb
      let s4 := bumpTeam (bumpTeam s2 ka fun st => { st with played := st.played + 1 })
        kb fun st => { st with played := st.played + 1 }
      if m.winner == some "A" then
        bumpTeam (bumpTeam s4 ka fun st => { st with wins := st.wins + 1 })
          kb fun st => { st with losses := st.losses + 1 }
      else
        bumpTeam (bumpTeam s4 kb fun st => { st with wins := st.wins + 1 })
          ka fun st => { st with losses := st.losses + 1 }

/-- `members.find(user_id)?.name ?? 'Unknown'`. -/
def memberNameOf (members : List RankingMember) (pid : String) : String :=
  match members.find? fun mb => mb.user_id == pid with
  | some mb => mb.name.getD "Unknown"
  | none => "Unknown"

/-- One aggregated stats entry turned into a `TeamStanding` row. -/
def toTeamStanding (members : List RankingMember) (kv : String × TeamStat) :
    TeamStanding :=
  { team_key := kv.1
    player_ids := kv.2.player_ids
    player_names := kv.2.player_ids.map (memberNameOf members)
    rank := 0
    played := kv.2.played
    wins := kv.2.wins
    losses := kv.2.losses
    winPct := if 0 < kv.2.played then
        jsRound ((kv.2.wins : ℚ) / kv.2.played * 100)
      else 0 }

/-- The team sort chain (`wins` desc, `losses` asc, `winPct` desc) as the
predicate `cmp(a,b) <= 0`. -/
def teamLe (a b : TeamStanding) : Bool :=
  if a.wins = b.wins then
    if a.losses = b.losses then decide (b.winPct ≤ a.winPct)
    else decide (a.losses < b.losses)
  else decide (b.wins < a.wins)

/-- Embedding of `calculateTeamStandings` (ranking service). -/
def calculateTeamStandings (ms : List RankingMatch)
    (participants : List RankingParticipant) (members : List RankingMember) :
    List TeamStanding :=
  assignTeamRanks (jsSortBy teamLe
    (((completedOf ms).foldl (teamMatchUpdate (relevantOf ms participants)) []).map
      (toTeamStanding members)))

/-! ### Specification-side definitions (written from the claims' words) -/

/-- C7 spec wording: a member's runs are the completed-match participant
rows of that member carrying a time, converted to pace in seconds per km
(1000 m when the distance is absent or non-positive), with non-positive
paces discarded, ordered by week number then by elapsed time. -/
def c7SpecRuns (ms : List RankingMatch) (ps : List RankingParticipant)
    (uid : String) : List PaceRun :=
  jsSortBy weekElapsedLe ((relevantOf ms ps).filterMap fun p =>
    if p.user_id = uid then
      match p.time_seconds with
      | none => none
      | some t =>
          let d : ℚ := match p.distance_meters with
            | none => 1000
            | some d => if d ≤ 0 then 1000 else d
          let pace := t / (d / 1000)
          if pace ≤ 0 then none
          else some ⟨weekByMatchId (completedOf ms) p.match_id, pace, t⟩
    else none)

/-- C7 spec wording: the member's score is the sum of
`(prevPace - curPace) / prevPace * 100` over consecutive run pairs rounded
to 2 decimals, wins count the positive comparisons, losses the negative
ones, and total time is the summed elapsed time. -/
def c7SpecEntry (ms : List RankingMatch) (ps : List RankingParticipant)
    (member : RankingMember) : Standing :=
  let runs := c7SpecRuns ms ps member.user_id
  let diffs := (runs.zip runs.tail).map fun pr =>
    (pr.1.paceSecondsPerKm - pr.2.paceSecondsPerKm) / pr.1.paceSecondsPerKm * 100
  { user_id := member.user_id
    name := member.name
    avatar_url := member.avatar_url
    rank := 0
    played := runs.length
    wins := diffs.countP fun q => decide (0 < q)
    draws := 0
    losses := diffs.countP fun q => decide (q < 0)
    points := round2 diffs.sum
    goalDifference := 0
    totalTime := (runs.map (·.elapsedSeconds)).sum
    totalPoints := round2 diffs.sum }

/-- C7 spec wording: entries sorted by total improvement desc, improving
comparisons desc, play count desc, total time asc, with 1-based ranks. -/
def c7SpecStandings (ms : List RankingMatch) (ps : List RankingParticipant)
    (members : List RankingMember) : List Standing :=
  assignRanks (jsSortBy ppLe (members.map (c7SpecEntry ms ps)))

/-- C8 amended spec wording: a completed match contributes exactly when its
winner is recorded and both sides have at least two participants. -/
def eligibleMatch (relevant : List RankingParticipant) (m : RankingMatch) : Bool :=
  winnerTruthy m && decide (2 ≤ (sideAIds relevant m).length) &&
    decide (2 ≤ (sideBIds relevant m).length)

/-- The stream of (side-key, sorted side ids) pairs of the contributing
matches, side A before side B, in match order. -/
def keyStream (relevant : List RankingParticipant) (ms : List RankingMatch) :
    List (String × List String) :=
  (ms.filter (eligibleMatch relevant)).flatMap fun m =>
    [(teamKey (sideAIds relevant m), sideAIds relevant m),
     (teamKey (sideBIds relevant m), sideBIds relevant m)]

/-- First-appearance deduplication of the key stream (the unique pair keys). -/
def dedupKeys (l : List (String × List String)) : List (String × List String) :=
  l.foldl (fun acc kv => if acc.any (fun x => x.1 == kv.1) then acc
    else acc ++ [kv]) []

/-- The side-key credited with the win of a contributing match. -/
def winKey (relevant : List RankingParticipant) (m : RankingMatch) : String :=
  if m.winner == some "A" then teamKey (sideAIds relevant m)
  else teamKey (sideBIds relevant m)

/-- The side-key debited with the loss of a contributing match. -/
def loseKey (relevant : List RankingParticipant) (m : RankingMatch) : String :=
  if m.winner == some "A" then teamKey (sideBIds relevant m)
  else teamKey (sideAIds relevant m)

/-- Matches played under a side-key: contributing matches where the key is
the A-side key plus those where it is the B-side key. -/
def playedCount (relevant : List RankingParticipant) (ms : List RankingMatch)
    (k : String) : Nat :=
  (ms.filter (eligibleMatch relevant)).countP
      (fun m => teamKey (sideAIds relevant m) == k) +
    (ms.filter (eligibleMatch relevant)).countP
      (fun m => teamKey (sideBIds relevant m) == k)

def winsCount (relevant : List RankingParticipant) (ms : List RankingMatch)
    (k : String) : Nat :=
  (ms.filter (eligibleMatch relevant)).countP fun m => winKey relevant m == k

def lossesCount (relevant : List RankingParticipant) (ms : List RankingMatch)
    (k : String) : Nat :=
  (ms.filter (eligibleMatch relevant)).countP fun m => loseKey relevant m == k

/-- C8 amended spec wording: one stats row per unique pair key (in first
appearance order) accumulating played/wins/losses over the contributing
matches. -/
def c8SpecStats (relevant : List RankingParticipant) (ms : List RankingMatch) :
    List (String × TeamStat) :=
  (dedupKeys (keyStream relevant ms)).map fun kv =>
    (kv.1, ⟨kv.2, playedCount relevant ms kv.1, winsCount relevant ms kv.1,
      lossesCount relevant ms kv.1⟩)

/-- C8 amended spec wording: rows ranked 1-based after sorting by wins desc,
losses asc, win percentage desc, with `winPct = round(wins/played*100)`. -/
def c8SpecTeamStandings (ms : List RankingMatch)
    (participants : List RankingParticipant) (members : List RankingMember) :
    List TeamStanding :=
  assignTeamRanks (jsSortBy teamLe
    ((c8SpecStats (relevantOf ms participants) (completedOf ms)).map
      (toTeamStanding members)))

/-! ## Result workflow and sessions (routes/fixtures.ts, routes/sessions.ts)

The persistent store is a record of row lists; each route handler becomes a
pure function from a store (plus the request inputs and a clock `now`) to
the updated store and the HTTP outcome.  `single?` models the
supabase `.single()` call (exactly one matching row, else an error row /
`null`).  JSON payloads and `metadata` columns are `JVal` values; the JS
object spread used by the metadata updates is `objMerge`.
-/

/-- JSON primitive values. -/
inductive JPrim where
  | str (s : String)
  | num (q : ℚ)
  | bool (b : Bool)
  | null
deriving DecidableEq, Repr

/-- JSON values to nesting depth two: a primitive or an object of
primitives.  Depth two is the deepest shape the embedded handlers ever read
or write (payload objects inside `metadata`, and the
`submissions.require_organizer_approval` rules path). -/
inductive JVal where
  | prim (p : JPrim)
  | obj (fields : List (String × JPrim))
deriving DecidableEq, Repr

/-- `asObject(value)` on a request payload: plain objects pass through,
everything else (arrays, null, primitives) becomes `{}`. -/
def asObject : JVal → List (String × JPrim)
  | .obj fields => fields
  | _ => []

/-- Key lookup in a JSON object (first matching key). -/
def jGet (fields : List (String × JVal)) (k : String) : Option JVal :=
  (fields.find? fun kv => kv.1 == k).map (·.2)

def jGetP (fields : List (String × JPrim)) (k : String) : Option JPrim :=
  (fields.find? fun kv => kv.1 == k).map (·.2)

/-- One JS object property assignment: overwrite in place or append. -/
def setKey (l : List (String × JVal)) (k : String) (v : JVal) :
    List (String × JVal) :=
  if l.any (fun kv => kv.1 == k) then
    l.map fun kv => if kv.1 == k then (k, v) else kv
  else l ++ [(k, v)]

/-- The object spread `{...base, k1: v1, ..., kn: vn}`. -/
def objMerge (base : List (String × JVal)) (updates : List (String × JVal)) :
    List (String × JVal) :=
  updates.foldl (fun acc kv => setKey acc kv.1 kv.2) base

/-- `getNestedBoolean` restricted to primitive leaves. -/
def getNestedBooleanP (o : List (String × JPrim)) : List String → Option Bool
  | [k] =>
      match jGetP o k with
      | some (JPrim.bool b) => some b
      | _ => none
  | _ => none

/-- `getNestedBoolean(obj, path)` (utils/rules): walk into objects along
the path, reject non-objects mid-path and non-boolean leaves. -/
def getNestedBoolean (o : List (String × JVal)) : List String → Option Bool
  | [] => none
  | [k] =>
      match jGet o k with
      | some (JVal.prim (JPrim.bool b)) => some b
      | _ => none
  | k :: rest =>
      match jGet o k with
      | some (JVal.obj inner) => getNestedBooleanP inner rest
      | _ => none

structure League where
  id : String
  sport_type : String
  rules_jsonb : List (String × JVal)
deriving DecidableEq, Repr

structure Member where
  league_id : String
  user_id : String
  role : String
deriving DecidableEq, Repr

structure Fixture where
  id : String
  league_id : String
  week_number : Option Int
  fixture_type : String
  status : String
  metadata : List (String × JVal)
deriving DecidableEq, Repr

structure Participant where
  fixture_id : String
  user_id : String
  side : String
deriving DecidableEq, Repr

structure Submission where
  id : String
  fixture_id : String
  submitted_by : String
  source : String
  status : String
  payload : List (String × JPrim)
  reviewed_by : Option String
  reviewed_at : Option Nat
  review_note : Option String
deriving DecidableEq, Repr

structure Confirmation where
  submission_id : String
  fixture_id : String
  confirmed_by : String
  confirming_side : String
  decision : String
  reason : Option String
deriving DecidableEq, Repr

structure Session where
  id : String
  league_id : String
  week_number : Option Int
  status : String
  submission_deadline : Option Nat
  distance_meters : Option ℚ
deriving DecidableEq, Repr

structure SessionRun where
  id : String
  session_id : String
  user_id : String
  elapsed_seconds : ℚ
  distance_meters : ℚ
  proof_url : Option String
  status : String
  submitted_at : Nat
  reviewed_by : Option String
  reviewed_at : Option Nat
  review_note : Option String
deriving DecidableEq, Repr

structure DB where
  leagues : List League
  members : List Member
  fixtures : List Fixture
  participants : List Participant
  submissions : List Submission
  confirmations : List Confirmation
  sessions : List Session
  runs : List SessionRun
  nextId : Nat
deriving DecidableEq, Repr

/-- `.single()`: exactly one matching row, otherwise an error (`none`). -/
def single? {α : Type} (l : List α) (p : α → Bool) : Option α :=
  match l.filter p with
  | [x] => some x
  | _ => none

/-- `getFixture` (fixtures route helper). -/
def getFixture (db : DB) (fixtureId : String) : Option Fixture :=
  single? db.fixtures fun f => f.id == fixtureId

/-- `getLeagueRole` (league-access util): `null` on error or empty role. -/
def getLeagueRole (db : DB) (leagueId userId : String) : Option String :=
  (single? db.members fun m =>
    m.league_id == leagueId && m.user_id == userId).bind fun m =>
    if m.role == "" then none else some m.role

/-- `isLeagueAdminRole`. -/
def isLeagueAdminRole (role : Option String) : Bool :=
  role == some "owner" || role == some "admin"

/-- `getFixtureSide` (fixtures route helper). -/
def getFixtureSide (db : DB) (fixtureId userId : String) : Option String :=
  (single? db.participants fun p =>
    p.fixture_id == fixtureId && p.user_id == userId).bind fun p =>
    if p.side == "" then none else some p.side

/-- A store-generated row id. -/
def freshId (db : DB) : String := "row-" ++ toString db.nextId

inductive OpResult where
  | err (code : Nat) (msg : String)
  | submitOk (submissionId : String) (finalized : Bool)
  | confirmOk (finalized : Bool) (disputed : Bool)
  | resolveOk (submissionId : String)
  | runOk (runId : String) (requiresReview : Bool)
  | sessionOk
  | finalizeOk (finalizedRuns : Nat) (requiresReview : Bool)
deriving DecidableEq, Repr

/-- `POST /:id/results/submit` (fixtures route).  `now` is the clock; the
`metadata` column is taken as the object `asObject` would produce. -/
def submitResult (db : DB) (now : Nat) (fixtureId userId : String)
    (payloadRaw : JVal) : DB × OpResult :=
  if fixtureId == "" then (db, .err 400 "fixture id is required")
  else
    let payload := asObject payloadRaw
    if payload.length == 0 then (db, .err 400 "Result payload is required")
    else
      match getFixture db fixtureId with
      | none => (db, .err 404 "Fixture not found")
      | some fixture =>
          if fixture.status == "finalized" || fixture.status == "cancelled" then
            (db, .err 400 "Cannot submit results for terminal fixture")
          else
            match getLeagueRole db fixture.league_id userId with
            | none => (db, .err 403 "You must be a league member to submit results")
            | some role =>
                let submissionSource :=
                  if isLeagueAdminRole (some role) then "organizer" else "participant"
                let db1 := { db with submissions := db.submissions.map fun (s : Submission) =>
                  if s.fixture_id == fixtureId && s.submitted_by == userId &&
                      s.status == "pending" then
                    { s with status := "superseded" }
                  else s }
                let isOrganizerSubmission := submissionSource == "organizer"
                let subId := freshId db1
                let submission : Submission :=
                  { id := subId, fixture_id := fixtureId, submitted_by := userId,
                    source := submissionSource
                    status := if isOrganizerSubmission then "accepted" else "pending"
                    payload := payload
                    reviewed_by := if isOrganizerSubmission then some userId else none
                    reviewed_at := if isOrganizerSubmission then some now else none
                    review_note := none }
                let db2 := { db1 with
                  submissions := db1.submissions ++ [submission],
                  nextId := db1.nextId + 1 }
                let db3 :=
                  if isOrganizerSubmission then
                    { db2 with fixtures := db2.fixtures.map fun (f : Fixture) =>
                      if f.id == fixtureId then
                        { f with
                          status := "finalized",
                          metadata := objMerge fixture.metadata
                            [("finalized_submission_id", JVal.prim (JPrim.str subId)),
                             ("final_result", JVal.obj submission.payload)] }
                      else f }
                  else if fixture.status == "scheduled" then
                    { db2 with fixtures := db2.fixtures.map fun (f : Fixture) =>
                      if f.id == fixtureId then { f with status := "submitted" }
                      else f }
                  else db2
                (db3, .submitOk subId isOrganizerSubmission)

/-- The confirm-vote finalization rule of `POST /:id/results/confirm`:
finalize when the organizer side confirmed, or the side opposite the
submitter confirmed, or (if the submitter side is unknown) both sides
confirmed. -/
def confirmFinalizeRule (sides : List String) (submitterSide : Option String) :
    Bool :=
  if sides.contains "organizer" then true
  else if submitterSide == some "A" then sides.contains "B"
  else if submitterSide == some "B" then sides.contains "A"
  else sides.contains "A" && sides.contains "B"

/-- `POST /:id/results/confirm` (fixtures route). -/
def confirmResult (db : DB) (now : Nat) (fixtureId userId : String)
    (submissionId : String) (decisionRaw : String) (reason : Option String) :
    DB × OpResult :=
  let decision := if decisionRaw == "reject" then "reject" else "confirm"
  if fixtureId == "" then (db, .err 400 "fixture id is required")
  else if submissionId == "" then (db, .err 400 "submissionId is required")
  else
    match getFixture db fixtureId with
    | none => (db, .err 404 "Fixture not found")
    | some fixture =>
        match getLeagueRole db fixture.league_id userId with
        | none => (db, .err 403 "You must be a league member to confirm results")
        | some role =>
            match single? db.submissions fun s =>
                s.id == submissionId && s.fixture_id == fixtureId with
            | none => (db, .err 404 "Submission not found for this fixture")
            | some submission =>
                if submission.submitted_by == userId then
                  (db, .err 400 "Submitter cannot confirm their own submission")
                else if submission.status != "pending" then
                  (db, .err 400 "Submission is already reviewed")
                else
                  let confirmingSide :=
                    if isLeagueAdminRole (some role) then some "organizer"
                    else getFixtureSide db fixtureId userId
                  match confirmingSide with
                  | none =>
                      (db, .err 403 "Only fixture participants or organizers can confirm")
                  | some side =>
                      let db1 := { db with
                        confirmations := db.confirmations ++
                          [⟨submissionId, fixtureId, userId, side, decision, reason⟩] }
                      if decision == "reject" then
                        let db2 := { db1 with submissions := db1.submissions.map fun (s : Submission) =>
                          if s.id == submissionId then
                            { s with
                              status := "rejected", reviewed_by := some userId,
                              reviewed_at := some now, review_note := reason }
                          else s }
                        let db3 := { db2 with fixtures := db2.fixtures.map fun (f : Fixture) =>
                          if f.id == fixtureId then { f with status := "disputed" }
                          else f }
                        (db3, .confirmOk false true)
                      else
                        let sides := ((db1.confirmations.filter fun c =>
                          c.submission_id == submissionId).filter fun c =>
                            c.decision == "confirm").map (·.confirming_side)
                        let submitterSide :=
                          if submission.source == "participant" then
                            getFixtureSide db1 fixtureId submission.submitted_by
                          else none
                        let finalize := confirmFinalizeRule sides submitterSide
                        if finalize then
                          let db2 := { db1 with submissions := db1.submissions.map fun (s : Submission) =>
                            if s.id == submissionId then
                              { s with
                                status := "accepted", reviewed_by := some userId,
                                reviewed_at := some now }
                            else s }
                          let db3 := { db2 with fixtures := db2.fixtures.map fun (f : Fixture) =>
                            if f.id == fixtureId then
                              { f with
                                status := "finalized",
                                metadata := objMerge fixture.metadata
                                  [("finalized_submission_id",
                                    JVal.prim (JPrim.str submission.id)),
                                   ("final_result", JVal.obj submission.payload)] }
                            else f }
                          (db3, .confirmOk true false)
                        else
                          let db2 := { db1 with fixtures := db1.fixtures.map fun (f : Fixture) =>
                            if f.id == fixtureId &&
                                (f.status == "submitted" || f.status == "confirmed") then
                              { f with status := "confirmed" }
                            else f }
                          (db2, .confirmOk false false)

/-- `POST /:id/results/resolve` (fixtures route). -/
def resolveResult (db : DB) (now : Nat) (fixtureId userId : String)
    (submissionId : String) (payloadRaw : JVal) (reasonRaw : String) :
    DB × OpResult :=
  let manualPayload := asObject payloadRaw
  let reason := reasonRaw.trim
  if fixtureId == "" then (db, .err 400 "fixture id is required")
  else
    match getFixture db fixtureId with
    | none => (db, .err 404 "Fixture not found")
    | some fixture =>
        if ¬ isLeagueAdminRole (getLeagueRole db fixture.league_id userId) then
          (db, .err 403 "Only league owner or admin can resolve disputed results")
        else
          let step :
              Option (DB × List (String × JPrim) × String) :=
            if submissionId != "" then
              match single? db.submissions fun s =>
                  s.id == submissionId && s.fixture_id == fixtureId with
              | none => none
              | some sub =>
                  some ({ db with submissions := db.submissions.map fun (s : Submission) =>
                    if s.id == submissionId then
                      { s with
                        status := "accepted", reviewed_by := some userId,
                        reviewed_at := some now,
                        review_note := if reason == "" then none else some reason }
                    else s }, sub.payload, sub.id)
            else if manualPayload.length == 0 then none
            else
              let subId := freshId db
              some ({ db with
                submissions := db.submissions ++
                  [{ id := subId, fixture_id := fixtureId, submitted_by := userId,
                     source := "organizer", status := "accepted",
                     payload := manualPayload, reviewed_by := some userId,
                     reviewed_at := some now,
                     review_note := if reason == "" then none else some reason }],
                nextId := db.nextId + 1 }, manualPayload, subId)
          match step with
          | none =>
              if submissionId != "" then
                (db, .err 404 "Submission not found for this fixture")
              else (db, .err 400 "payload or submissionId is required")
          | some (db1, finalPayload, finalizedSubmissionId) =>
              let db2 := { db1 with submissions := db1.submissions.map fun (s : Submission) =>
                if s.fixture_id == fixtureId && s.id != finalizedSubmissionId &&
                    (s.status == "pending" || s.status == "rejected") then
                  { s with
                    status := "superseded", reviewed_by := some userId,
                    reviewed_at := some now }
                else s }
              let db3 := { db2 with fixtures := db2.fixtures.map fun (f : Fixture) =>
                if f.id == fixtureId then
                  { f with
                    status := "finalized",
                    metadata := objMerge fixture.metadata
                      [("finalized_submission_id",
                        JVal.prim (JPrim.str finalizedSubmissionId)),
                       ("final_result", JVal.obj finalPayload),
                       ("resolved_by", JVal.prim (JPrim.str userId)),
                       ("resolved_at", JVal.prim (JPrim.num now)),
                       ("resolution_reason",
                        if reason == "" then JVal.prim JPrim.null
                        else JVal.prim (JPrim.str reason))] }
                else f }
              (db3, .resolveOk finalizedSubmissionId)

/-- `requiresOrganizerApproval` (sessions route):
`submissions.require_organizer_approval === true` in the league rules. -/
def requiresOrganizerApproval (db : DB) (leagueId : String) : Bool :=
  match single? db.leagues fun lg => lg.id == leagueId with
  | some lg =>
      getNestedBoolean lg.rules_jsonb
        ["submissions", "require_organizer_approval"] == some true
  | none => false

/-- `getSession` (sessions route helper). -/
def getSession (db : DB) (sessionId : String) : Option Session :=
  single? db.sessions fun sn => sn.id == sessionId

/-- The matched-fixture condition of the sessions routes: same league, same
(non-null) week number, `fixture_type = 'time_trial_session'`.  A session
with a null week number matches no fixture (SQL `= NULL` semantics). -/
def sessionFixtureMatch (sn : Session) (f : Fixture) : Bool :=
  f.league_id == sn.league_id && sn.week_number.isSome &&
    f.week_number == sn.week_number && f.fixture_type == "time_trial_session"

/-- `POST /:id/runs/submit` (sessions route).  The request numbers arrive
pre-parsed: `none` stands for an absent or non-numeric value. -/
def submitRun (db : DB) (now : Nat) (sessionId userId : String)
    (elapsedInput : Option ℚ) (distanceInput : Option ℚ)
    (proofUrlInput : Option String) : DB × OpResult :=
  if sessionId == "" then (db, .err 400 "session id is required")
  else
    match getSession db sessionId with
    | none => (db, .err 404 "Session not found")
    | some session =>
        match getLeagueRole db session.league_id userId with
        | none => (db, .err 403 "You must be a league member to submit runs")
        | some _role =>
            if session.status == "finalized" || session.status == "closed" then
              (db, .err 400 "Cannot submit runs for terminal sessions")
            else if (match session.submission_deadline with
                | some d => decide (d < now)
                | none => false) then
              (db, .err 400 "Submission deadline has passed")
            else
              match elapsedInput with
              | none => (db, .err 400 "elapsedSeconds must be a positive number")
              | some elapsedSeconds =>
                  if elapsedSeconds ≤ 0 then
                    (db, .err 400 "elapsedSeconds must be a positive number")
                  else
                    let distanceMeters : Option ℚ :=
                      match distanceInput with
                      | some d => some ((jsRound d : ℤ) : ℚ)
                      | none => session.distance_meters
                    match distanceMeters with
                    | none =>
                        (db, .err 400 "distanceMeters must be provided for this session")
                    | some dm =>
                        if dm ≤ 0 then
                          (db, .err 400 "distanceMeters must be provided for this session")
                        else
                          let proofUrl :=
                            match proofUrlInput with
                            | some u => if u.trim == "" then none else some u.trim
                            | none => none
                          let needReview := requiresOrganizerApproval db session.league_id
                          let runStatus := if needReview then "submitted" else "approved"
                          let existing := db.runs.find? fun r =>
                            r.session_id == sessionId && r.user_id == userId
                          let runId :=
                            match existing with
                            | some r => r.id
                            | none => freshId db
                          let newRun : SessionRun :=
                            { id := runId, session_id := sessionId, user_id := userId,
                              elapsed_seconds := elapsedSeconds, distance_meters := dm,
                              proof_url := proofUrl, status := runStatus,
                              submitted_at := now, reviewed_by := none,
                              reviewed_at := none, review_note := none }
                          let db1 :=
                            match existing with
                            | some _ => { db with runs := db.runs.map fun (r : SessionRun) =>
                                if r.session_id == sessionId && r.user_id == userId then
                                  newRun
                                else r }
                            | none =>
                                { db with
                                  runs := db.runs ++ [newRun],
                                  nextId := db.nextId + 1 }
                          let db2 :=
                            if session.status == "scheduled" then
                              { db1 with sessions := db1.sessions.map fun (sn : Session) =>
                                if sn.id == sessionId then { sn with status := "open" }
                                else sn }
                            else db1
                          let db3 := { db2 with fixtures := db2.fixtures.map fun (f : Fixture) =>
                            if sessionFixtureMatch session f &&
                                (f.status == "scheduled" || f.status == "confirmed") then
                              { f with status := "submitted" }
                            else f }
                          (db3, .runOk runId needReview)

/-- `POST /:id/sessions` (league sessions upsert route); only the fields the
embedded store carries are threaded through. -/
def upsertSession (db : DB) (leagueId userId : String) (weekNumber : Int)
    (statusRaw : String) (submissionDeadline : Option Nat)
    (distanceMeters : Option ℚ) : DB × OpResult :=
  let statusV :=
    if statusRaw == "open" || statusRaw == "closed" || statusRaw == "finalized"
    then statusRaw else "scheduled"
  if leagueId == "" then (db, .err 400 "league id is required")
  else if weekNumber < 1 then
    (db, .err 400 "weekNumber must be a positive integer")
  else if ¬ isLeagueAdminRole (getLeagueRole db leagueId userId) then
    (db, .err 403 "Only league owner or admin can manage sessions")
  else
    match single? db.leagues fun lg => lg.id == leagueId with
    | none => (db, .err 404 "League not found")
    | some league =>
        if league.sport_type != "running" then
          (db, .err 400 "Session management is only supported for running leagues")
        else
          let db1 :=
            if db.sessions.any fun sn =>
                sn.league_id == leagueId && sn.week_number == some weekNumber then
              { db with sessions := db.sessions.map fun (sn : Session) =>
                if sn.league_id == leagueId && sn.week_number == some weekNumber then
                  { sn with
                    status := statusV,
                    submission_deadline := submissionDeadline,
                    distance_meters := distanceMeters }
                else sn }
            else
              { db with
                sessions := db.sessions ++
                  [{ id := freshId db, league_id := leagueId,
                     week_number := some weekNumber, status := statusV,
                     submission_deadline := submissionDeadline,
                     distance_meters := distanceMeters }],
                nextId := db.nextId + 1 }
          let existingFixture := db1.fixtures.find? fun f =>
            f.league_id == leagueId && f.week_number == some weekNumber &&
              f.fixture_type == "time_trial_session"
          let db2 :=
            match existingFixture with
            | some fx =>
                { db1 with fixtures := db1.fixtures.map fun (f : Fixture) =>
                  if f.id == fx.id then
                    { f with status :=
                        if statusV == "finalized" then "finalized" else "scheduled" }
                  else f }
            | none =>
                { db1 with
                  fixtures := db1.fixtures ++
                    [{ id := freshId db1, league_id := leagueId,
                       week_number := some weekNumber,
                       fixture_type := "time_trial_session",
                       status :=
                         if statusV == "finalized" then "finalized" else "scheduled",
                       metadata :=
                         [("generated", JVal.prim (JPrim.bool false)),
                          ("sport", JVal.prim (JPrim.str "running")),
                          ("source", JVal.prim (JPrim.str "manual_session"))] }],
                  nextId := db1.nextId + 1 }
          (db2, .sessionOk)

/-- `POST /:id/finalize` (sessions route): promote the eligible runs, lock
the session, and overwrite the paired time-trial fixtures' status and
metadata. -/
def finalizeSession (db : DB) (now : Nat) (sessionId userId : String) :
    DB × OpResult :=
  if sessionId == "" then (db, .err 400 "session id is required")
  else
    match getSession db sessionId with
    | none => (db, .err 404 "Session not found")
    | some session =>
        if ¬ isLeagueAdminRole (getLeagueRole db session.league_id userId) then
          (db, .err 403 "Only league owner or admin can finalize sessions")
        else
          let needReview := requiresOrganizerApproval db session.league_id
          let promotable := db.runs.filter fun r =>
            r.session_id == sessionId &&
              (if needReview then r.status == "approved"
               else r.status == "approved" || r.status == "submitted")
          let runIds := promotable.map (·.id)
          let db1 := { db with
            runs := db.runs.map fun (r : SessionRun) =>
              if runIds.contains r.id then
                { r with
                  status := "finalized", reviewed_by := some userId,
                  reviewed_at := some now }
              else r }
          let db2 := { db1 with sessions := db1.sessions.map fun (sn : Session) =>
            if sn.id == sessionId then { sn with status := "finalized" } else sn }
          let bestElapsedSeconds := promotable.foldl
            (fun best r =>
              match best with
              | none => some r.elapsed_seconds
              | some b => if r.elapsed_seconds < b then some r.elapsed_seconds
                  else some b)
            (none : Option ℚ)
          let db3 := { db2 with
            fixtures := db2.fixtures.map fun (f : Fixture) =>
              if sessionFixtureMatch session f then
                { f with
                  status := "finalized",
                  metadata :=
                    [("finalized_session_id", JVal.prim (JPrim.str sessionId)),
                     ("finalized_runs", JVal.prim (JPrim.num runIds.length)),
                     ("best_elapsed_seconds",
                      match bestElapsedSeconds with
                      | some b => JVal.prim (JPrim.num b)
                      | none => JVal.prim JPrim.null)] }
              else f }
          (db3, .finalizeOk runIds.length needReview)

/-! ### State accessors and claim-side conditions -/

def fixtureStatus (db : DB) (fixtureId : String) : Option String :=
  (getFixture db fixtureId).map (·.status)

def fixtureMetadata (db : DB) (fixtureId : String) :
    Option (List (String × JVal)) :=
  (getFixture db fixtureId).map (·.metadata)

def submissionById (db : DB) (submissionId : String) : Option Submission :=
  single? db.submissions fun s => s.id == submissionId

def submissionStatus (db : DB) (submissionId : String) : Option String :=
  (submissionById db submissionId).map (·.status)

/-- Number of `accepted` submissions a fixture holds. -/
@[reducible] def countAccepted (db : DB) (fixtureId : String) : Nat :=
  db.submissions.countP fun s =>
    s.fixture_id == fixtureId && s.status == "accepted"

/-- Position of a workflow status on the forward chain
`scheduled → submitted → confirmed → finalized` (`disputed` sits beside
`confirmed`). -/
def chainRank : String → Nat
  | "scheduled" => 0
  | "submitted" => 1
  | "confirmed" => 2
  | "disputed" => 2
  | "finalized" => 3
  | _ => 0

/-- A status change that never moves down the chain: stay put, move
sideways into `disputed`, or advance strictly forward. -/
def forwardStep (s s2 : String) : Bool :=
  s2 == s || s2 == "disputed" || decide (chainRank s < chainRank s2)

/-- The five workflow statuses of the claim's fixture state machine. -/
def workflowStatuses : List String :=
  ["scheduled", "submitted", "confirmed", "finalized", "disputed"]

/-- C2's finalization condition, in the claim's words: the confirm votes
contain the organizer side, or the side opposite the submitter's side when
that side is known, or both sides when it cannot be determined. -/
def c2FinalizeCond (sides : List String) (submitterSide : Option String) :
    Prop :=
  "organizer" ∈ sides ∨
    (submitterSide = some "A" ∧ "B" ∈ sides) ∨
    (submitterSide = some "B" ∧ "A" ∈ sides) ∨
    (submitterSide ≠ some "A" ∧ submitterSide ≠ some "B" ∧
      "A" ∈ sides ∧ "B" ∈ sides)

/-! ### A small concrete store used by witnesses and counterexamples -/

def exDB : DB :=
  { leagues := [⟨"lg", "running", []⟩]
    members := [⟨"lg", "adm", "owner"⟩, ⟨"lg", "u1", "member"⟩,
      ⟨"lg", "u2", "member"⟩]
    fixtures := [⟨"f1", "lg", some 1, "league_match", "scheduled",
        [("origin", JVal.prim (JPrim.str "gen"))]⟩,
      ⟨"ft", "lg", some 1, "time_trial_session", "confirmed",
        [("origin", JVal.prim (JPrim.str "gen"))]⟩]
    participants := [⟨"f1", "u1", "A"⟩, ⟨"f1", "u2", "B"⟩]
    submissions := []
    confirmations := []
    sessions := [⟨"sn", "lg", some 1, "open", none, some 5000⟩]
    runs := []
    nextId := 0 }

def exPayloadA : JVal := JVal.obj [("winner", JPrim.str "A")]

def exPayloadB : JVal := JVal.obj [("winner", JPrim.str "B")]

/-- C10's claimed post-state of a fixture row under session finalization:
rows paired with the session are finalized and their metadata is exactly
the three finalization keys; all other rows are untouched. -/
def c10WholesaleFrame (session : Session) (sessionId : String)
    (f f2 : Fixture) : Prop :=
  if sessionFixtureMatch session f = true then
    f2.status = "finalized" ∧
    f2.metadata.map Prod.fst =
      ["finalized_session_id", "finalized_runs", "best_elapsed_seconds"] ∧
    jGet f2.metadata "finalized_session_id" =
      some (JVal.prim (JPrim.str sessionId))
  else f2 = f

/-- The accepted-submission predicate of a fixture. -/
@[reducible] def accP (fid : String) : Submission → Bool :=
  fun s => s.fixture_id == fid && s.status == "accepted"

/-- C3's invariant, strengthened to an inductive one: every fixture holds at
most one accepted submission, and a fixture holding one is finalized. -/
@[reducible] def accInv (db : DB) : Prop :=
  ∀ fid : String, countAccepted db fid ≤ 1 ∧
    (1 ≤ countAccepted db fid →
      ∀ f ∈ db.fixtures, f.id = fid → f.status = "finalized")

-- sanity checks (mirroring the repository's unit test)
example :
    (generateSinglesSchedule ["u1", "u2", "u3", "u4"] 3).length = 6 := by decide
example :
    ∀ f ∈ generateSinglesSchedule ["u1", "u2", "u3", "u4"] 3,
      f.sideA.length = 1 ∧ f.sideB.length = 1 ∧
      f.sideA ≠ ["BYE"] ∧ f.sideB ≠ ["BYE"] := by decide

lemma posA_lt (n r i : Nat) (h2 : 2 ≤ n) : posA n r i < n := by
  unfold posA
  split
  · omega
  · have := Nat.mod_lt (i - 1 + r) (y := n - 1) (by omega)
    omega

lemma posB_lt (n r i : Nat) (h2 : 2 ≤ n) : posB n r i < n := by
  unfold posB
  have := Nat.mod_lt (n - 2 - i + r) (y := n - 1) (by omega)
  omega

lemma posB_pos (n r i : Nat) (h2 : 2 ≤ n) : 0 < posB n r i := by
  unfold posB; omega

lemma getD_range_map {α : Type} (f : Nat → α) (n i : Nat) (d : α) (hi : i < n) :
    ((List.range n).map f).getD i d = f i := by
  rw [List.getD_eq_getElem?_getD]
  simp [List.getElem?_map, List.getElem?_range hi]

lemma getD_mem {α : Type} (l : List α) (d : α) (i : Nat) (hi : i < l.length) :
    l.getD i d ∈ l := by
  rw [List.getD_eq_getElem l d hi]
  exact List.getElem_mem hi

lemma filterMap_eq_map_of {α β : Type} (l : List α) (f : α → Option β) (g : α → β)
    (h : ∀ a ∈ l, f a = some (g a)) : l.filterMap f = l.map g := by
  induction l with
  | nil => rfl
  | cons x xs ih =>
      rw [List.filterMap_cons, h x (by simp), List.map_cons,
        ih fun a ha => h a (by simp [ha])]

lemma weekPairs_eq_map (ids : List String) (h2 : 2 ≤ ids.length)
    (hbye : "BYE" ∉ ids) (w : Nat) :
    weekPairs ids w = (List.range (ids.length / 2)).map fun i =>
      ⟨w, [ids.getD (posA ids.length ((w - 1) % (ids.length - 1)) i) ""],
          [ids.getD (posB ids.length ((w - 1) % (ids.length - 1)) i) ""]⟩ := by
  simp only [weekPairs]
  set n := ids.length with hn
  set r := (w - 1) % (n - 1) with hr
  apply filterMap_eq_map_of
  intro i hi
  have hi' : i < n / 2 := by simpa using hi
  have hin : i < n := by omega
  have hj : n - 1 - i < n := by omega
  have ha : (rotatedIds ids r).getD i "" = ids.getD (posA n r i) "" := by
    unfold rotatedIds
    rw [← hn, getD_range_map _ n i "" hin]
    unfold posA
    split
    · simp [*]
    · simp [*]
  have hb : (rotatedIds ids r).getD (n - 1 - i) "" = ids.getD (posB n r i) "" := by
    unfold rotatedIds
    rw [← hn, getD_range_map _ n (n - 1 - i) "" hj]
    have hne : ¬ (n - 1 - i = 0) := by omega
    rw [if_neg hne]
    unfold posB
    have harg : n - 1 - i - 1 = n - 2 - i := by omega
    rw [harg]
  have hmemA : ids.getD (posA n r i) "" ∈ ids :=
    getD_mem ids "" _ (by rw [← hn]; exact posA_lt n r i h2)
  have hmemB : ids.getD (posB n r i) "" ∈ ids :=
    getD_mem ids "" _ (by rw [← hn]; exact posB_lt n r i h2)
  rw [ha, hb, if_neg]
  · push_neg
    constructor
    · intro h; exact hbye (h ▸ hmemA)
    · intro h; exact hbye (h ▸ hmemB)

lemma pair_cases {a b c d : ℕ} (h : ({a, b} : Finset ℕ) = {c, d}) :
    (a = c ∧ b = d) ∨ (a = d ∧ b = c) := by
  have ha : a = c ∨ a = d := by
    have : a ∈ ({c, d} : Finset ℕ) := by rw [← h]; simp
    simpa using this
  have hb : b = c ∨ b = d := by
    have : b ∈ ({c, d} : Finset ℕ) := by rw [← h]; simp
    simpa using this
  have hc : c = a ∨ c = b := by
    have : c ∈ ({a, b} : Finset ℕ) := by rw [h]; simp
    simpa using this
  have hd : d = a ∨ d = b := by
    have : d ∈ ({a, b} : Finset ℕ) := by rw [h]; simp
    simpa using this
  omega

lemma castZ_mod {m : ℕ} {a b : ℕ} (h : a % m = b % m) : (a : ZMod m) = b := by
  have := congrArg (fun x : ℕ => (x : ZMod m)) h
  simpa [ZMod.natCast_mod] using this

lemma castZ_inj {m a b : ℕ} (ha : a < m) (hb : b < m) (h : (a : ZMod m) = b) :
    a = b := by
  haveI : NeZero m := ⟨by omega⟩
  have := congrArg ZMod.val h
  rwa [ZMod.val_cast_of_lt ha, ZMod.val_cast_of_lt hb] at this

lemma cancel_two {m : ℕ} (hodd : m % 2 = 1) {x y : ZMod m} (h : 2 * x = 2 * y) :
    x = y := by
  have hu : IsUnit (2 : ZMod m) := by
    have h2 : ((2 : ℕ) : ZMod m) = (2 : ZMod m) := by push_cast; ring
    have := (ZMod.isUnit_iff_coprime 2 m).mpr
      (Nat.coprime_two_left.mpr (Nat.odd_iff.mpr hodd))
    rwa [h2] at this
  exact hu.mul_left_cancel h

lemma castZ_zero {m i : ℕ} (hm : 0 < m) (hi : i < m) (h : (i : ZMod m) = 0) :
    i = 0 := by
  haveI : NeZero m := ⟨by omega⟩
  have hdvd : m ∣ i := (ZMod.natCast_zmod_eq_zero_iff_dvd i m).mp h
  rcases Nat.eq_zero_or_pos i with h0 | hpos
  · exact h0
  · exact absurd (Nat.le_of_dvd hpos hdvd) (by omega)

lemma resA {n r i : ℕ} (h1 : 1 ≤ i) :
    ((i - 1 + r : ℕ) : ZMod (n - 1)) = (i : ZMod (n - 1)) - 1 + r := by
  rw [Nat.cast_add, Nat.cast_sub h1, Nat.cast_one]

lemma resB {n r i : ℕ} (h2 : 2 ≤ n) (hi : i + 2 ≤ n) :
    ((n - 2 - i + r : ℕ) : ZMod (n - 1)) = -1 - (i : ZMod (n - 1)) + r := by
  have harg : n - 2 - i = n - (2 + i) := by omega
  have hn1 : ((n : ℕ) : ZMod (n - 1)) = 1 := by
    have : n = (n - 1) + 1 := by omega
    rw [this, Nat.cast_add, Nat.cast_one, ZMod.natCast_self, zero_add]
  rw [harg, Nat.cast_add, Nat.cast_sub (by omega : 2 + i ≤ n), Nat.cast_add,
    hn1, Nat.cast_two]
  ring

lemma posA_ne_posB {n r i : ℕ} (heven : n % 2 = 0) (h2 : 2 ≤ n) (hi : i < n / 2) :
    posA n r i ≠ posB n r i := by
  have hodd : (n - 1) % 2 = 1 := by omega
  rcases Nat.eq_zero_or_pos i with h0 | h1
  · subst h0
    intro h
    rw [posA, if_pos rfl, posB] at h
    omega
  · intro h
    rw [posA, if_neg (by omega), posB] at h
    have hmod : (i - 1 + r) % (n - 1) = (n - 2 - i + r) % (n - 1) := by omega
    have hz := castZ_mod (m := n - 1) hmod
    rw [resA h1, resB h2 (by omega)] at hz
    have h2i : (2 : ZMod (n - 1)) * i = 2 * 0 := by linear_combination hz
    have := castZ_zero (m := n - 1) (by omega) (by omega : i < n - 1)
      (cancel_two hodd h2i)
    omega


lemma posA_zero (n r : ℕ) : posA n r 0 = 0 := by simp [posA]

lemma posA_of_pos (n r : ℕ) {i : ℕ} (h : 0 < i) :
    posA n r i = (i - 1 + r) % (n - 1) + 1 := by
  rw [posA, if_neg (by omega)]

lemma pairPos_inj {n : ℕ} (heven : n % 2 = 0) (h2 : 2 ≤ n)
    {r r' i i' : ℕ} (hi : i < n / 2) (hi' : i' < n / 2)
    (hr : r < n - 1) (hr' : r' < n - 1)
    (hAB : ({posA n r i, posB n r i} : Finset ℕ) = {posA n r' i', posB n r' i'}) :
    r = r' ∧ i = i' := by
  have hodd : (n - 1) % 2 = 1 := by omega
  have hcases := pair_cases hAB
  rcases Nat.eq_zero_or_pos i with hz | h1 <;>
    rcases Nat.eq_zero_or_pos i' with hz' | h1'
  · -- i = 0, i' = 0
    subst hz; subst hz'
    refine ⟨?_, rfl⟩
    rcases hcases with ⟨e1, e2⟩ | ⟨e1, e2⟩
    · rw [posB, posB] at e2
      have hzz := castZ_mod (m := n - 1)
        (show (n - 2 - 0 + r) % (n - 1) = (n - 2 - 0 + r') % (n - 1) by omega)
      rw [resB h2 (by omega), resB h2 (by omega)] at hzz
      exact castZ_inj hr hr' (by linear_combination hzz)
    · rw [posA_zero, posB] at e1
      omega
  · -- i = 0, i' ≥ 1: position 0 is in the left pair but not the right one
    exfalso
    subst hz
    rw [posA_zero, posA_of_pos n r' h1', posB, posB] at hcases
    omega
  · -- i ≥ 1, i' = 0
    exfalso
    subst hz'
    rw [posA_zero, posA_of_pos n r h1, posB, posB] at hcases
    omega
  · -- i ≥ 1, i' ≥ 1
    rw [posA_of_pos n r h1, posA_of_pos n r' h1', posB, posB] at hcases
    rcases hcases with ⟨e1, e2⟩ | ⟨e1, e2⟩
    · have hz1 := castZ_mod (m := n - 1)
        (show (i - 1 + r) % (n - 1) = (i' - 1 + r') % (n - 1) by omega)
      have hz2 := castZ_mod (m := n - 1)
        (show (n - 2 - i + r) % (n - 1) = (n - 2 - i' + r') % (n - 1) by omega)
      rw [resA h1, resA h1'] at hz1
      rw [resB h2 (by omega), resB h2 (by omega)] at hz2
      have h2r : (2 : ZMod (n - 1)) * r = 2 * r' := by
        linear_combination hz1 + hz2
      have hrr : r = r' := castZ_inj hr hr' (cancel_two hodd h2r)
      refine ⟨hrr, ?_⟩
      subst hrr
      have hii : (i : ZMod (n - 1)) = i' := by linear_combination hz1
      exact castZ_inj (by omega) (by omega) hii
    · exfalso
      have hz1 := castZ_mod (m := n - 1)
        (show (i - 1 + r) % (n - 1) = (n - 2 - i' + r') % (n - 1) by omega)
      have hz2 := castZ_mod (m := n - 1)
        (show (n - 2 - i + r) % (n - 1) = (i' - 1 + r') % (n - 1) by omega)
      rw [resA h1, resB h2 (by omega)] at hz1
      rw [resB h2 (by omega), resA h1'] at hz2
      have h2r : (2 : ZMod (n - 1)) * r = 2 * r' := by
        linear_combination hz1 + hz2
      have hrr : r = r' := castZ_inj hr hr' (cancel_two hodd h2r)
      subst hrr
      have hsum : ((i + i' : ℕ) : ZMod (n - 1)) = 0 := by
        push_cast
        linear_combination hz1
      have := castZ_zero (m := n - 1) (by omega)
        (by omega : i + i' < n - 1) hsum
      omega

lemma pairAt_card {n r i : ℕ} (heven : n % 2 = 0) (h2 : 2 ≤ n) (hi : i < n / 2) :
    (pairAt n r i).card = 2 := by
  rw [pairAt, Finset.card_insert_of_not_mem (by simp [posA_ne_posB heven h2 hi]),
    Finset.card_singleton]

lemma pairAt_mem_powerset {n r i : ℕ} (heven : n % 2 = 0) (h2 : 2 ≤ n)
    (hi : i < n / 2) :
    pairAt n r i ∈ (Finset.range n).powersetCard 2 := by
  rw [Finset.mem_powersetCard]
  refine ⟨?_, pairAt_card heven h2 hi⟩
  rw [pairAt]
  intro x hx
  rcases Finset.mem_insert.mp hx with h | h
  · subst h; exact Finset.mem_range.mpr (posA_lt n r i h2)
  · rw [Finset.mem_singleton.mp h]
    exact Finset.mem_range.mpr (posB_lt n r i h2)

lemma cyclePairs_nodup {n : ℕ} (heven : n % 2 = 0) (h2 : 2 ≤ n) :
    (cyclePairs n).Nodup := by
  rw [cyclePairs, List.nodup_flatMap]
  constructor
  · intro r hr
    rw [List.mem_range] at hr
    refine List.Nodup.map_on ?_ (List.nodup_range _)
    intro i hi i' hi' h
    rw [List.mem_range] at hi hi'
    exact (pairPos_inj heven h2 hi hi' hr hr (by simpa only [pairAt] using h)).2
  · refine ((List.pairwise_lt_range _).imp_of_mem ?_)
    intro r r' hr hr' hlt
    rw [List.mem_range] at hr hr'
    intro x hx hx'
    rcases List.mem_map.mp hx with ⟨i, hi, rfl⟩
    rcases List.mem_map.mp hx' with ⟨i', hi', hmm⟩
    rw [List.mem_range] at hi hi'
    have := (pairPos_inj heven h2 hi' hi hr' hr
      (by simpa only [pairAt] using hmm)).1
    omega

lemma cyclePairs_length (n : ℕ) : (cyclePairs n).length = (n - 1) * (n / 2) := by
  rw [cyclePairs, List.length_flatMap]
  have : (List.map (List.length ∘ fun r => (List.range (n / 2)).map (pairAt n r))
      (List.range (n - 1))) = List.replicate (n - 1) (n / 2) := by
    rw [show (List.length ∘ fun r => (List.range (n / 2)).map (pairAt n r)) =
      Function.const ℕ (n / 2) by funext r; simp, List.map_const,
      List.length_range]
  rw [this, List.sum_replicate, smul_eq_mul]

lemma choose_two_even {n : ℕ} (heven : n % 2 = 0) :
    n.choose 2 = (n - 1) * (n / 2) := by
  rw [Nat.choose_two_right]
  obtain ⟨t, ht⟩ : ∃ t, n = 2 * t := ⟨n / 2, by omega⟩
  subst ht
  rw [show 2 * t * (2 * t - 1) = 2 * (t * (2 * t - 1)) by ring,
    Nat.mul_div_cancel_left _ (by omega : 0 < 2)]
  have : 2 * t / 2 = t := by omega
  rw [this, Nat.mul_comm]

lemma cyclePairs_toFinset {n : ℕ} (heven : n % 2 = 0) (h2 : 2 ≤ n) :
    (cyclePairs n).toFinset = (Finset.range n).powersetCard 2 := by
  have hsub : (cyclePairs n).toFinset ⊆ (Finset.range n).powersetCard 2 := by
    intro x hx
    rw [List.mem_toFinset, cyclePairs, List.mem_flatMap] at hx
    rcases hx with ⟨r, hr, hx⟩
    rcases List.mem_map.mp hx with ⟨i, hi, rfl⟩
    exact pairAt_mem_powerset heven h2 (List.mem_range.mp hi)
  refine Finset.eq_of_subset_of_card_le hsub ?_
  rw [List.toFinset_card_of_nodup (cyclePairs_nodup heven h2),
    cyclePairs_length, Finset.card_powersetCard, Finset.card_range,
    choose_two_even heven]

lemma cyclePairs_count {n j k : ℕ} (heven : n % 2 = 0) (h2 : 2 ≤ n)
    (hj : j < n) (hk : k < n) (hjk : j ≠ k) :
    (cyclePairs n).count ({j, k} : Finset ℕ) = 1 := by
  have hmem : ({j, k} : Finset ℕ) ∈ (cyclePairs n).toFinset := by
    rw [cyclePairs_toFinset heven h2, Finset.mem_powersetCard]
    constructor
    · intro x hx
      rcases Finset.mem_insert.mp hx with h | h
      · subst h; exact Finset.mem_range.mpr hj
      · rw [Finset.mem_singleton.mp h]; exact Finset.mem_range.mpr hk
    · rw [Finset.card_insert_of_not_mem (by simp [hjk]), Finset.card_singleton]
  rw [List.mem_toFinset] at hmem
  have h1 := (List.nodup_iff_count_le_one.mp (cyclePairs_nodup heven h2))
    ({j, k} : Finset ℕ)
  have h0 := List.count_pos_iff.mpr hmem
  omega

lemma padRoster_even {memberIds : List String} (h : memberIds.length % 2 = 0) :
    padRoster memberIds = memberIds := by
  rw [padRoster, if_neg (by omega)]

lemma flatMap_congr_mem {α β : Type} {l : List α} {f g : α → List β}
    (h : ∀ a ∈ l, f a = g a) : l.flatMap f = l.flatMap g := by
  induction l with
  | nil => rfl
  | cons x xs ih =>
      rw [List.flatMap_cons, List.flatMap_cons, h x (by simp),
        ih fun a ha => h a (by simp [ha])]

lemma countP_flatMap {α β : Type} (l : List α) (f : α → List β) (p : β → Bool) :
    (l.flatMap f).countP p = (l.map fun a => (f a).countP p).sum := by
  induction l with
  | nil => rfl
  | cons x xs ih => rw [List.flatMap_cons, List.countP_append, List.map_cons,
      List.sum_cons, ih]

lemma countP_congr_mem {α : Type} {l : List α} {p q : α → Bool}
    (h : ∀ a ∈ l, p a = q a) : l.countP p = l.countP q := by
  induction l with
  | nil => rfl
  | cons x xs ih =>
      rw [List.countP_cons, List.countP_cons, h x (by simp),
        ih fun a ha => h a (by simp [ha])]

lemma getD_inj {ids : List String} (h : ids.Nodup) {a b : ℕ}
    (ha : a < ids.length) (hb : b < ids.length)
    (hab : ids.getD a "" = ids.getD b "") : a = b := by
  rw [List.getD_eq_getElem _ _ ha, List.getD_eq_getElem _ _ hb] at hab
  exact (h.getElem_inj_iff).mp hab

lemma schedule_nf (ids : List String) (heven : ids.length % 2 = 0)
    (h2 : 2 ≤ ids.length) (hbye : "BYE" ∉ ids) (weeks : Nat)
    (hweeks : weeks ≤ ids.length - 1) :
    generateSinglesSchedule ids weeks =
      (List.range weeks).flatMap fun r => (List.range (ids.length / 2)).map fun i =>
        ⟨r + 1, [ids.getD (posA ids.length r i) ""],
                [ids.getD (posB ids.length r i) ""]⟩ := by
  simp only [generateSinglesSchedule, padRoster_even heven]
  apply flatMap_congr_mem
  intro wk hwk
  rw [List.mem_range] at hwk
  rw [weekPairs_eq_map ids h2 hbye (wk + 1)]
  have : (wk + 1 - 1) % (ids.length - 1) = wk := by
    rw [Nat.add_sub_cancel, Nat.mod_eq_of_lt (by omega)]
  rw [this]

/-- C1: for every even roster of distinct member ids (with no literal `"BYE"`
member) and week count `n - 1`, `generateSinglesSchedule` produces each
unordered pair of members exactly once across weeks `1..n-1`, and no fixture
side ever contains the synthetic `BYE` slot. -/
theorem c1_generateSinglesSchedule_roundRobin
    (memberIds : List String) (hnodup : memberIds.Nodup)
    (heven : memberIds.length % 2 = 0) (hbye : "BYE" ∉ memberIds) :
    (∀ f ∈ generateSinglesSchedule memberIds (memberIds.length - 1),
        "BYE" ∉ f.sideA ∧ "BYE" ∉ f.sideB) ∧
    (∀ p ∈ memberIds, ∀ q ∈ memberIds, p ≠ q →
      (generateSinglesSchedule memberIds (memberIds.length - 1)).countP
        (fun f => decide ((f.sideA = [p] ∧ f.sideB = [q]) ∨
                          (f.sideA = [q] ∧ f.sideB = [p]))) = 1) := by
  rcases Nat.eq_zero_or_pos memberIds.length with h0 | hpos
  · rw [List.eq_nil_of_length_eq_zero h0]
    constructor
    · intro f hf
      simp [generateSinglesSchedule] at hf
    · intro p hp
      simp at hp
  have h2 : 2 ≤ memberIds.length := by omega
  set n := memberIds.length with hn
  rw [schedule_nf memberIds heven h2 hbye (n - 1) le_rfl]
  constructor
  · intro f hf
    rcases List.mem_flatMap.mp hf with ⟨r, hr, hf⟩
    rcases List.mem_map.mp hf with ⟨i, hi, rfl⟩
    constructor
    · intro hmem
      have h := List.mem_singleton.mp hmem
      have hmemA : memberIds.getD (posA n r i) "" ∈ memberIds :=
        getD_mem memberIds "" _ (by rw [← hn]; exact posA_lt n r i h2)
      rw [← h] at hmemA
      exact hbye hmemA
    · intro hmem
      have h := List.mem_singleton.mp hmem
      have hmemB : memberIds.getD (posB n r i) "" ∈ memberIds :=
        getD_mem memberIds "" _ (by rw [← hn]; exact posB_lt n r i h2)
      rw [← h] at hmemB
      exact hbye hmemB
  · intro p hp q hq hpq
    obtain ⟨j, hjlt, hjp⟩ := List.mem_iff_getElem.mp hp
    obtain ⟨k, hklt, hkq⟩ := List.mem_iff_getElem.mp hq
    have hj' : memberIds.getD j "" = p := by
      rw [List.getD_eq_getElem _ _ hjlt]; exact hjp
    have hk' : memberIds.getD k "" = q := by
      rw [List.getD_eq_getElem _ _ hklt]; exact hkq
    have hjk : j ≠ k := by
      intro h
      apply hpq
      rw [← hj', ← hk', h]
    have target := cyclePairs_count (n := n) heven h2 (by omega) (by omega) hjk
    rw [cyclePairs, List.count_eq_countP, countP_flatMap] at target
    rw [countP_flatMap]
    rw [show (List.map (fun r => ((List.range (n / 2)).map fun i =>
        (⟨r + 1, [memberIds.getD (posA n r i) ""],
          [memberIds.getD (posB n r i) ""]⟩ : ScheduledFixture)).countP
        (fun f => decide ((f.sideA = [p] ∧ f.sideB = [q]) ∨
                          (f.sideA = [q] ∧ f.sideB = [p])))) (List.range (n - 1)))
      = (List.map (fun r => ((List.range (n / 2)).map (pairAt n r)).countP
          (fun x => x == ({j, k} : Finset ℕ))) (List.range (n - 1))) from ?_]
    · exact target
    apply List.map_congr_left
    intro r hr
    rw [List.mem_range] at hr
    rw [List.countP_map, List.countP_map]
    apply countP_congr_mem
    intro i hi
    rw [List.mem_range] at hi
    simp only [Function.comp]
    have hAlt : posA n r i < n := posA_lt n r i h2
    have hBlt : posB n r i < n := posB_lt n r i h2
    rw [show (pairAt n r i == ({j, k} : Finset ℕ)) =
        decide (pairAt n r i = ({j, k} : Finset ℕ)) from rfl]
    apply decide_eq_decide.mpr
    constructor
    · rintro (⟨ha, hb⟩ | ⟨ha, hb⟩)
      · have haj : posA n r i = j := getD_inj hnodup (by omega) (by omega)
          (by rw [hj']; exact List.singleton_injective.eq_iff.mp ha)
        have hbk : posB n r i = k := getD_inj hnodup (by omega) (by omega)
          (by rw [hk']; exact List.singleton_injective.eq_iff.mp hb)
        rw [pairAt, haj, hbk]
      · have hak : posA n r i = k := getD_inj hnodup (by omega) (by omega)
          (by rw [hk']; exact List.singleton_injective.eq_iff.mp ha)
        have hbj : posB n r i = j := getD_inj hnodup (by omega) (by omega)
          (by rw [hj']; exact List.singleton_injective.eq_iff.mp hb)
        rw [pairAt, hak, hbj, Finset.pair_comm]
    · intro h
      rw [pairAt] at h
      rcases pair_cases h with ⟨ha, hb⟩ | ⟨ha, hb⟩
      · left
        rw [ha, hb, hj', hk']
        exact ⟨rfl, rfl⟩
      · right
        rw [ha, hb, hj', hk']
        exact ⟨rfl, rfl⟩

/-- Witness for C1 at the concrete roster `["a", "b", "c", "d"]`. -/
theorem c1_witness :
    (["a", "b", "c", "d"] : List String).Nodup ∧
    (∀ f ∈ generateSinglesSchedule ["a", "b", "c", "d"] 3,
        "BYE" ∉ f.sideA ∧ "BYE" ∉ f.sideB) ∧
    (generateSinglesSchedule ["a", "b", "c", "d"] 3).countP
        (fun f => decide ((f.sideA = ["a"] ∧ f.sideB = ["c"]) ∨
                          (f.sideA = ["c"] ∧ f.sideB = ["a"]))) = 1 := by
  have h := c1_generateSinglesSchedule_roundRobin ["a", "b", "c", "d"]
    (by decide) (by decide) (by decide)
  exact ⟨by decide, h.1, h.2 "a" (by decide) "c" (by decide) (by decide)⟩

lemma weekPairs_weekNumber {ids : List String} {w : ℕ} {f : ScheduledFixture}
    (hf : f ∈ weekPairs ids w) : f.weekNumber = w := by
  simp only [weekPairs] at hf
  rcases List.mem_filterMap.mp hf with ⟨i, _, hi⟩
  by_cases hcond : (rotatedIds ids ((w - 1) % (ids.length - 1))).getD i "" = "BYE" ∨
      (rotatedIds ids ((w - 1) % (ids.length - 1))).getD (ids.length - 1 - i) "" = "BYE"
  · rw [if_pos hcond] at hi; cases hi
  · rw [if_neg hcond] at hi
    cases hi
    rfl

lemma filter_flatMap {α β : Type} (l : List α) (f : α → List β) (p : β → Bool) :
    (l.flatMap f).filter p = l.flatMap fun a => (f a).filter p := by
  induction l with
  | nil => rfl
  | cons x xs ih => rw [List.flatMap_cons, List.filter_append, ih, List.flatMap_cons]

lemma flatMap_if_single {β : Type} (weeks v : ℕ) (g : ℕ → List β) :
    ((List.range weeks).flatMap fun wk => if wk + 1 = v then g (wk + 1) else []) =
    if 1 ≤ v ∧ v ≤ weeks then g v else [] := by
  induction weeks with
  | zero =>
      rw [List.range_zero, List.flatMap_nil, if_neg (by omega)]
  | succ w ih =>
      rw [List.range_succ, List.flatMap_append, ih]
      have : ([w] : List ℕ).flatMap (fun wk => if wk + 1 = v then g (wk + 1) else []) =
          if w + 1 = v then g (w + 1) else [] := by
        rw [List.flatMap_cons, List.flatMap_nil, List.append_nil]
      rw [this]
      by_cases hv : w + 1 = v
      · rw [if_pos hv, if_neg (by omega), if_pos (by omega), List.nil_append, hv]
      · by_cases hv' : 1 ≤ v ∧ v ≤ w
        · rw [if_pos hv', if_neg hv, if_pos (by omega), List.append_nil]
        · rw [if_neg hv', if_neg hv, if_neg (by omega), List.append_nil]

lemma schedule_filter_week (memberIds : List String) (weeks v : ℕ) :
    (generateSinglesSchedule memberIds weeks).filter
        (fun f => f.weekNumber == v) =
      if 1 ≤ v ∧ v ≤ weeks then weekPairs (padRoster memberIds) v else [] := by
  simp only [generateSinglesSchedule]
  rw [filter_flatMap]
  have : ∀ wk ∈ List.range weeks,
      (weekPairs (padRoster memberIds) (wk + 1)).filter (fun f => f.weekNumber == v) =
      if wk + 1 = v then weekPairs (padRoster memberIds) (wk + 1) else [] := by
    intro wk _
    by_cases hv : wk + 1 = v
    · rw [if_pos hv]
      apply List.filter_eq_self.mpr
      intro f hf
      have := weekPairs_weekNumber hf
      simp [this, hv]
    · rw [if_neg hv]
      apply List.filter_eq_nil_iff.mpr
      intro f hf
      have := weekPairs_weekNumber hf
      simp [this, hv]
  rw [flatMap_congr_mem this, flatMap_if_single]

lemma weekPairs_shift (ids : List String) (w : ℕ) (hw : 1 ≤ w) :
    (weekPairs ids (w + (ids.length - 1))).map (fun f => (f.sideA, f.sideB)) =
    (weekPairs ids w).map (fun f => (f.sideA, f.sideB)) := by
  simp only [weekPairs]
  rw [List.map_filterMap, List.map_filterMap]
  have hrot : (w + (ids.length - 1) - 1) % (ids.length - 1) =
      (w - 1) % (ids.length - 1) := by
    rw [show w + (ids.length - 1) - 1 = (w - 1) + (ids.length - 1) by omega,
      Nat.add_mod_right]
  rw [hrot]
  congr 1
  funext x
  by_cases hcond : (rotatedIds ids ((w - 1) % (ids.length - 1))).getD x "" = "BYE" ∨
      (rotatedIds ids ((w - 1) % (ids.length - 1))).getD (ids.length - 1 - x) "" = "BYE"
  · rw [if_pos hcond, if_pos hcond]
  · rw [if_neg hcond, if_neg hcond]
    rfl

/-- C9 counterexample: for the odd roster size 3 the singles schedule is not
periodic with period `n - 1 = 2`: week 3 pairs `a` with `c` while week 1
pairs `b` with `c`. -/
theorem c9_counterexample :
    ((generateSinglesSchedule ["a", "b", "c"] 3).filter
        (fun f => f.weekNumber == 1 + 2)).map (fun f => (f.sideA, f.sideB)) ≠
    ((generateSinglesSchedule ["a", "b", "c"] 3).filter
        (fun f => f.weekNumber == 1)).map (fun f => (f.sideA, f.sideB)) := by
  decide

/-- C9 (amended): for every even roster size `n`, the singles schedule is
periodic with period `n - 1`: week `w + (n-1)` produces the same pairings
(up to week number) as week `w`.  (For odd roster sizes the `BYE` padding
makes the period `n`, not `n - 1`.) -/
theorem c9_generateSinglesSchedule_periodic
    (memberIds : List String) (heven : memberIds.length % 2 = 0)
    (weeks w : ℕ) (hw : 1 ≤ w) (hweeks : w + (memberIds.length - 1) ≤ weeks) :
    ((generateSinglesSchedule memberIds weeks).filter
        (fun f => f.weekNumber == w + (memberIds.length - 1))).map
        (fun f => (f.sideA, f.sideB)) =
    ((generateSinglesSchedule memberIds weeks).filter
        (fun f => f.weekNumber == w)).map (fun f => (f.sideA, f.sideB)) := by
  rw [schedule_filter_week, schedule_filter_week,
    if_pos (by omega : 1 ≤ w + (memberIds.length - 1) ∧
      w + (memberIds.length - 1) ≤ weeks),
    if_pos (by omega : 1 ≤ w ∧ w ≤ weeks)]
  have hpad : padRoster memberIds = memberIds := padRoster_even heven
  rw [hpad]
  exact weekPairs_shift memberIds w hw

/-- Witness for C9 (amended) at roster size 4, week 1 against week 4. -/
theorem c9_witness :
    ((generateSinglesSchedule ["a", "b", "c", "d"] 4).filter
        (fun f => f.weekNumber == 1 + 3)).map (fun f => (f.sideA, f.sideB)) =
    ((generateSinglesSchedule ["a", "b", "c", "d"] 4).filter
        (fun f => f.weekNumber == 1)).map (fun f => (f.sideA, f.sideB)) :=
  c9_generateSinglesSchedule_periodic ["a", "b", "c", "d"] (by decide)
    4 1 (by decide) (by decide)

lemma foldl_runStep (ms : List RankingMatch) (l : List RankingParticipant)
    (acc : String → List PaceRun) (u : String) :
    (l.foldl (runStep ms) acc) u =
      acc u ++ l.filterMap (fun p => if p.user_id = u then runOf ms p else none) := by
  induction l generalizing acc with
  | nil => simp
  | cons p rest ih =>
      rw [List.foldl_cons, ih, List.filterMap_cons]
      by_cases huu : u = p.user_id
      · subst huu
        cases hro : runOf ms p with
        | none => simp [runStep, hro]
        | some run => simp [runStep, hro]
      · have h2 : ¬ (p.user_id = u) := fun h => huu h.symm
        cases hro : runOf ms p with
        | none => simp [runStep, hro, huu, h2]
        | some run => simp [runStep, hro, huu, h2]

lemma runsByUser_eq_filterMap (ms : List RankingMatch)
    (ps : List RankingParticipant) (u : String) :
    runsByUser ms ps u =
      (relevantOf ms ps).filterMap
        (fun p => if p.user_id = u then runOf ms p else none) := by
  rw [runsByUser, foldl_runStep]
  rfl

lemma c7SpecRuns_eq (ms : List RankingMatch) (ps : List RankingParticipant)
    (u : String) :
    c7SpecRuns ms ps u = jsSortBy weekElapsedLe (runsByUser ms ps u) := by
  rw [c7SpecRuns, runsByUser_eq_filterMap]
  congr 1
  apply List.filterMap_congr
  intro p _
  by_cases hu : p.user_id = u
  · rw [if_pos hu, if_pos hu, runOf]
    cases p.time_seconds with
    | none => rfl
    | some t =>
        have hd : (match p.distance_meters with
            | none => (1000 : ℚ)
            | some d => if d ≤ 0 then 1000 else d) = effDistance p := by
          rw [effDistance]
          cases p.distance_meters with
          | none => rfl
          | some d =>
              show (if d ≤ 0 then (1000 : ℚ) else d) = if 0 < d then d else 1000
              by_cases hdp : d ≤ 0
              · rw [if_pos hdp, if_neg (not_lt.mpr hdp)]
              · rw [if_neg hdp, if_pos (lt_of_not_le hdp)]
        simp only [hd]
  · rw [if_neg hu, if_neg hu]

lemma countP_map_pred {α β : Type} (f : α → β) (p : β → Bool) (l : List α) :
    (l.map f).countP p = l.countP fun a => p (f a) := by
  rw [List.countP_map]
  rfl

lemma ite_round2_map_sum {α : Type} (f : α → ℚ) (l : List α) :
    (if 0 < l.length then round2 (l.map f).sum else 0) = round2 (l.map f).sum := by
  cases l with
  | nil =>
      have h0 : jsRound 0 = 0 := by decide
      norm_num [round2, h0]
  | cons x xs => simp

lemma progressEntry_eq (ms : List RankingMatch) (ps : List RankingParticipant)
    (member : RankingMember) :
    progressEntry (runsByUser ms ps) member = c7SpecEntry ms ps member := by
  simp only [progressEntry, c7SpecEntry, c7SpecRuns_eq, countP_map_pred,
    ite_round2_map_sum]

/-- C7: for the `individual_time` format in `personal_progress` comparison
mode, the standings computation is exactly the claim's description: each
member's runs (pace seconds-per-km with a 1000 m fallback, non-positive
paces discarded) are ordered by week then elapsed time, consecutive-pair
percentage improvements are summed and rounded to 2 decimals, wins/losses
count improving/regressing comparisons, and entries are sorted by total
improvement desc, improving count desc, play count desc, total time asc,
with 1-based ranks. -/
theorem c7_personalProgress_spec (ms : List RankingMatch)
    (ps : List RankingParticipant) (members : List RankingMember) :
    personalProgressStandings ms ps members = c7SpecStandings ms ps members := by
  rw [personalProgressStandings, c7SpecStandings]
  congr 1
  congr 1
  apply List.map_congr_left
  intro member _
  exact progressEntry_eq ms ps member

lemma teamMatchUpdate_skip {relevant : List RankingParticipant}
    {m : RankingMatch} (h : ¬ eligibleMatch relevant m = true)
    (stats : List (String × TeamStat)) :
    teamMatchUpdate relevant stats m = stats := by
  rw [teamMatchUpdate]
  rw [eligibleMatch] at h
  by_cases hw : winnerTruthy m
  · rw [if_neg (by simpa using hw)]
    have hlen : (sideAIds relevant m).length < 2 ∨ (sideBIds relevant m).length < 2 := by
      by_contra hc
      push_neg at hc
      exact h (by simp [hw, hc.1, hc.2])
    rw [if_pos hlen]
  · rw [if_pos (by simpa using hw)]

lemma dedupKeys_append_one (s : List (String × List String))
    (kv : String × List String) :
    dedupKeys (s ++ [kv]) =
      if (dedupKeys s).any (fun x => x.1 == kv.1) then dedupKeys s
      else dedupKeys s ++ [kv] := by
  rw [dedupKeys, List.foldl_append]
  rfl

lemma dedupKeys_any_key (s : List (String × List String)) :
    ∀ k, ((dedupKeys s).any fun x => x.1 == k) = s.any fun x => x.1 == k := by
  induction s using List.reverseRecOn with
  | nil => intro k; rfl
  | append_singleton xs x ih =>
      intro k
      rw [dedupKeys_append_one, List.any_append]
      simp only [List.any_cons, List.any_nil, Bool.or_false]
      by_cases hx : (dedupKeys xs).any (fun y => y.1 == x.1)
      · rw [if_pos hx, ih k]
        by_cases hk : x.1 = k
        · have hxs : (xs.any fun y => y.1 == x.1) = true := by
            rw [← ih x.1]
            exact hx
          rw [hk] at hxs
          rw [hxs, Bool.true_or]
        · have hkf : (x.1 == k) = false := by simp [hk]
          rw [hkf, Bool.or_false]
      · rw [if_neg hx, List.any_append, ih k]
        simp only [List.any_cons, List.any_nil, Bool.or_false]

lemma any_key_map (l : List (String × List String))
    (g : String × List String → TeamStat) (k : String) :
    ((l.map fun kv => (kv.1, g kv)).any fun x => x.1 == k) =
      l.any fun x => x.1 == k := by
  induction l with
  | nil => rfl
  | cons x xs ih => simp [ih]

lemma winKey_cases (relevant : List RankingParticipant) (m : RankingMatch) :
    (winKey relevant m = teamKey (sideAIds relevant m) ∧
     loseKey relevant m = teamKey (sideBIds relevant m)) ∨
    (winKey relevant m = teamKey (sideBIds relevant m) ∧
     loseKey relevant m = teamKey (sideAIds relevant m)) := by
  rw [winKey, loseKey]
  by_cases h : m.winner == some "A"
  · left; rw [if_pos h, if_pos h]; exact ⟨rfl, rfl⟩
  · right; rw [if_neg h, if_neg h]; exact ⟨rfl, rfl⟩

lemma counts_zero_of_not_key (relevant : List RankingParticipant)
    (l : List RankingMatch) (k : String)
    (h : ((keyStream relevant l).any fun x => x.1 == k) = false) :
    playedCount relevant l k = 0 ∧ winsCount relevant l k = 0 ∧
      lossesCount relevant l k = 0 := by
  have hA : ∀ m ∈ l.filter (eligibleMatch relevant),
      ¬ (teamKey (sideAIds relevant m) == k) = true := by
    intro m hm hk
    have : (keyStream relevant l).any (fun x => x.1 == k) = true := by
      apply List.any_eq_true.mpr
      refine ⟨(teamKey (sideAIds relevant m), sideAIds relevant m), ?_, hk⟩
      rw [keyStream, List.mem_flatMap]
      exact ⟨m, hm, by simp⟩
    rw [h] at this
    cases this
  have hB : ∀ m ∈ l.filter (eligibleMatch relevant),
      ¬ (teamKey (sideBIds relevant m) == k) = true := by
    intro m hm hk
    have : (keyStream relevant l).any (fun x => x.1 == k) = true := by
      apply List.any_eq_true.mpr
      refine ⟨(teamKey (sideBIds relevant m), sideBIds relevant m), ?_, hk⟩
      rw [keyStream, List.mem_flatMap]
      exact ⟨m, hm, by simp⟩
    rw [h] at this
    cases this
  refine ⟨?_, ?_, ?_⟩
  · rw [playedCount, List.countP_eq_zero.mpr hA, List.countP_eq_zero.mpr hB]
  · rw [winsCount, List.countP_eq_zero.mpr]
    intro m hm hk
    rcases winKey_cases relevant m with ⟨hw, _⟩ | ⟨hw, _⟩
    · exact hA m hm (by rw [← hw]; exact hk)
    · exact hB m hm (by rw [← hw]; exact hk)
  · rw [lossesCount, List.countP_eq_zero.mpr]
    intro m hm hk
    rcases winKey_cases relevant m with ⟨_, hlo⟩ | ⟨_, hlo⟩
    · exact hB m hm (by rw [← hlo]; exact hk)
    · exact hA m hm (by rw [← hlo]; exact hk)

lemma counts_append (relevant : List RankingParticipant) (l : List RankingMatch)
    (m : RankingMatch) (hEm : eligibleMatch relevant m = true) (k : String) :
    playedCount relevant (l ++ [m]) k = playedCount relevant l k
        + (if teamKey (sideAIds relevant m) == k then 1 else 0)
        + (if teamKey (sideBIds relevant m) == k then 1 else 0) ∧
    winsCount relevant (l ++ [m]) k = winsCount relevant l k
        + (if winKey relevant m == k then 1 else 0) ∧
    lossesCount relevant (l ++ [m]) k = lossesCount relevant l k
        + (if loseKey relevant m == k then 1 else 0) := by
  have hfil : (l ++ [m]).filter (eligibleMatch relevant) =
      l.filter (eligibleMatch relevant) ++ [m] := by
    rw [List.filter_append]
    simp [hEm]
  refine ⟨?_, ?_, ?_⟩
  · rw [playedCount, playedCount, hfil, List.countP_append, List.countP_append]
    simp only [List.countP_cons, List.countP_nil]
    omega
  · rw [winsCount, winsCount, hfil, List.countP_append]
    simp only [List.countP_cons, List.countP_nil]
    omega
  · rw [lossesCount, lossesCount, hfil, List.countP_append]
    simp only [List.countP_cons, List.countP_nil]
    omega

lemma bumpTeam_map (D : List (String × List String))
    (g : String × List String → TeamStat) (k : String) (f : TeamStat → TeamStat) :
    bumpTeam (D.map fun kv => (kv.1, g kv)) k f =
      D.map fun kv => (kv.1, if kv.1 == k then f (g kv) else g kv) := by
  rw [bumpTeam, List.map_map]
  apply List.map_congr_left
  intro kv _
  by_cases h : kv.1 == k
  · simp [Function.comp, h]
  · simp [Function.comp, h]

lemma keyStream_append (relevant : List RankingParticipant)
    (l : List RankingMatch) (m : RankingMatch)
    (hEm : eligibleMatch relevant m = true) :
    keyStream relevant (l ++ [m]) = keyStream relevant l ++
      [(teamKey (sideAIds relevant m), sideAIds relevant m),
       (teamKey (sideBIds relevant m), sideBIds relevant m)] := by
  rw [keyStream, keyStream, List.filter_append, List.flatMap_append]
  congr 1
  simp [hEm]

lemma ensure_ensure_eq (relevant : List RankingParticipant)
    (l : List RankingMatch) (m : RankingMatch)
    (hEm : eligibleMatch relevant m = true) :
    ensureTeamKey (ensureTeamKey (c8SpecStats relevant l)
        (teamKey (sideAIds relevant m)) (sideAIds relevant m))
      (teamKey (sideBIds relevant m)) (sideBIds relevant m)
    = (dedupKeys (keyStream relevant (l ++ [m]))).map
        (fun kv => (kv.1, (⟨kv.2, playedCount relevant l kv.1,
          winsCount relevant l kv.1, lossesCount relevant l kv.1⟩ : TeamStat))) := by
  rw [keyStream_append relevant l m hEm,
    show keyStream relevant l ++
        [(teamKey (sideAIds relevant m), sideAIds relevant m),
         (teamKey (sideBIds relevant m), sideBIds relevant m)] =
      (keyStream relevant l ++ [(teamKey (sideAIds relevant m), sideAIds relevant m)]) ++
        [(teamKey (sideBIds relevant m), sideBIds relevant m)] by
      rw [List.append_assoc]; rfl,
    dedupKeys_append_one, dedupKeys_append_one]
  have hmapany : ∀ (D : List (String × List String)) (k : String),
      ((D.map fun kv => (kv.1, (⟨kv.2, playedCount relevant l kv.1,
          winsCount relevant l kv.1, lossesCount relevant l kv.1⟩ : TeamStat))).any
        fun x => x.1 == k) = D.any fun x => x.1 == k :=
    fun D k => any_key_map D _ k
  have hstats : c8SpecStats relevant l =
      (dedupKeys (keyStream relevant l)).map
        (fun kv => (kv.1, (⟨kv.2, playedCount relevant l kv.1,
          winsCount relevant l kv.1, lossesCount relevant l kv.1⟩ : TeamStat))) := rfl
  by_cases hka : ((dedupKeys (keyStream relevant l)).any
      fun x => x.1 == teamKey (sideAIds relevant m)) = true
  · rw [if_pos hka]
    have hens1 : ensureTeamKey (c8SpecStats relevant l)
        (teamKey (sideAIds relevant m)) (sideAIds relevant m) =
        c8SpecStats relevant l := by
      rw [ensureTeamKey, hstats, hmapany, if_pos hka]
    rw [hens1]
    by_cases hkb : ((dedupKeys (keyStream relevant l)).any
        fun x => x.1 == teamKey (sideBIds relevant m)) = true
    · rw [if_pos hkb, ensureTeamKey, hstats, hmapany, if_pos hkb]
    · rw [if_neg hkb, ensureTeamKey, hstats, hmapany, if_neg hkb,
        List.map_append]
      congr 1
      have hzero := counts_zero_of_not_key relevant l
        (teamKey (sideBIds relevant m))
        (by rw [← dedupKeys_any_key]; exact Bool.eq_false_iff.mpr hkb)
      simp [hzero.1, hzero.2.1, hzero.2.2]
  · rw [if_neg hka]
    have hzeroA := counts_zero_of_not_key relevant l
      (teamKey (sideAIds relevant m))
      (by rw [← dedupKeys_any_key]; exact Bool.eq_false_iff.mpr hka)
    have hens1 : ensureTeamKey (c8SpecStats relevant l)
        (teamKey (sideAIds relevant m)) (sideAIds relevant m) =
        (dedupKeys (keyStream relevant l) ++
          [(teamKey (sideAIds relevant m), sideAIds relevant m)]).map
          (fun kv => (kv.1, (⟨kv.2, playedCount relevant l kv.1,
            winsCount relevant l kv.1, lossesCount relevant l kv.1⟩ : TeamStat))) := by
      rw [ensureTeamKey, hstats, hmapany, if_neg hka, List.map_append]
      congr 1
      simp [hzeroA.1, hzeroA.2.1, hzeroA.2.2]
    rw [hens1]
    by_cases hkb : ((dedupKeys (keyStream relevant l) ++
        [(teamKey (sideAIds relevant m), sideAIds relevant m)]).any
        fun x => x.1 == teamKey (sideBIds relevant m)) = true
    · rw [if_pos hkb, ensureTeamKey, hmapany, if_pos hkb]
    · rw [if_neg hkb, ensureTeamKey, hmapany, if_neg hkb, List.map_append]
      have hkb' : ((dedupKeys (keyStream relevant l)).any
          fun x => x.1 == teamKey (sideBIds relevant m)) = false := by
        rw [List.any_append] at hkb
        rcases Bool.or_eq_false_iff.mp (Bool.eq_false_iff.mpr hkb) with ⟨h1, _⟩
        exact h1
      have hzero := counts_zero_of_not_key relevant l
        (teamKey (sideBIds relevant m))
        (by rw [← dedupKeys_any_key]; exact hkb')
      simp [hzero.1, hzero.2.1, hzero.2.2]

set_option maxHeartbeats 1000000 in
lemma teamFold_eq_spec (relevant : List RankingParticipant)
    (ms : List RankingMatch) :
    ms.foldl (teamMatchUpdate relevant) [] = c8SpecStats relevant ms := by
  induction ms using List.reverseRecOn with
  | nil => rfl
  | append_singleton l m ih =>
      rw [List.foldl_append, List.foldl_cons, List.foldl_nil, ih]
      by_cases hEm : eligibleMatch relevant m = true
      · have hEm' := hEm
        simp only [eligibleMatch, Bool.and_eq_true, decide_eq_true_eq] at hEm'
        obtain ⟨⟨hW, h2a⟩, h2b⟩ := hEm'
        simp only [teamMatchUpdate]
        rw [if_neg (not_not_intro hW), if_neg (by omega :
          ¬ ((sideAIds relevant m).length < 2 ∨ (sideBIds relevant m).length < 2))]
        rw [ensure_ensure_eq relevant l m hEm]
        rw [bumpTeam_map, bumpTeam_map]
        by_cases hwin : (m.winner == some "A") = true
        · rw [if_pos hwin, bumpTeam_map, bumpTeam_map, c8SpecStats]
          apply List.map_congr_left
          intro kv hkv
          obtain ⟨hpl, hwn, hls⟩ := counts_append relevant l m hEm kv.1
          have hwk : winKey relevant m = teamKey (sideAIds relevant m) := by
            rw [winKey, if_pos hwin]
          have hlk : loseKey relevant m = teamKey (sideBIds relevant m) := by
            rw [loseKey, if_pos hwin]
          rw [hwk] at hwn
          rw [hlk] at hls
          by_cases hA : kv.1 = teamKey (sideAIds relevant m) <;>
            by_cases hB : kv.1 = teamKey (sideBIds relevant m)
          · have hA1 : (kv.1 == teamKey (sideAIds relevant m)) = true := by
              simp [hA]
            have hA2 : (teamKey (sideAIds relevant m) == kv.1) = true := by
              simp [hA.symm]
            have hB1 : (kv.1 == teamKey (sideBIds relevant m)) = true := by
              simp [hB]
            have hB2 : (teamKey (sideBIds relevant m) == kv.1) = true := by
              simp [hB.symm]
            simp [hA1, hA2, hB1, hB2, hpl, hwn, hls]
          · have hA1 : (kv.1 == teamKey (sideAIds relevant m)) = true := by
              simp [hA]
            have hA2 : (teamKey (sideAIds relevant m) == kv.1) = true := by
              simp [hA.symm]
            have hB1 : (kv.1 == teamKey (sideBIds relevant m)) = false := by
              exact beq_eq_false_iff_ne.mpr hB
            have hB2 : (teamKey (sideBIds relevant m) == kv.1) = false := by
              exact beq_eq_false_iff_ne.mpr fun h => hB h.symm
            simp [hA1, hA2, hB1, hB2, hpl, hwn, hls]
          · have hA1 : (kv.1 == teamKey (sideAIds relevant m)) = false := by
              exact beq_eq_false_iff_ne.mpr hA
            have hA2 : (teamKey (sideAIds relevant m) == kv.1) = false := by
              exact beq_eq_false_iff_ne.mpr fun h => hA h.symm
            have hB1 : (kv.1 == teamKey (sideBIds relevant m)) = true := by
              simp [hB]
            have hB2 : (teamKey (sideBIds relevant m) == kv.1) = true := by
              simp [hB.symm]
            simp [hA1, hA2, hB1, hB2, hpl, hwn, hls]
          · have hA1 : (kv.1 == teamKey (sideAIds relevant m)) = false := by
              exact beq_eq_false_iff_ne.mpr hA
            have hA2 : (teamKey (sideAIds relevant m) == kv.1) = false := by
              exact beq_eq_false_iff_ne.mpr fun h => hA h.symm
            have hB1 : (kv.1 == teamKey (sideBIds relevant m)) = false := by
              exact beq_eq_false_iff_ne.mpr hB
            have hB2 : (teamKey (sideBIds relevant m) == kv.1) = false := by
              exact beq_eq_false_iff_ne.mpr fun h => hB h.symm
            simp [hA1, hA2, hB1, hB2, hpl, hwn, hls]
        · rw [if_neg hwin, bumpTeam_map, bumpTeam_map, c8SpecStats]
          apply List.map_congr_left
          intro kv hkv
          obtain ⟨hpl, hwn, hls⟩ := counts_append relevant l m hEm kv.1
          have hwk : winKey relevant m = teamKey (sideBIds relevant m) := by
            rw [winKey, if_neg hwin]
          have hlk : loseKey relevant m = teamKey (sideAIds relevant m) := by
            rw [loseKey, if_neg hwin]
          rw [hwk] at hwn
          rw [hlk] at hls
          by_cases hA : kv.1 = teamKey (sideAIds relevant m) <;>
            by_cases hB : kv.1 = teamKey (sideBIds relevant m)
          · have hA1 : (kv.1 == teamKey (sideAIds relevant m)) = true := by
              simp [hA]
            have hA2 : (teamKey (sideAIds relevant m) == kv.1) = true := by
              simp [hA.symm]
            have hB1 : (kv.1 == teamKey (sideBIds relevant m)) = true := by
              simp [hB]
            have hB2 : (teamKey (sideBIds relevant m) == kv.1) = true := by
              simp [hB.symm]
            simp [hA1, hA2, hB1, hB2, hpl, hwn, hls]
          · have hA1 : (kv.1 == teamKey (sideAIds relevant m)) = true := by
              simp [hA]
            have hA2 : (teamKey (sideAIds relevant m) == kv.1) = true := by
              simp [hA.symm]
            have hB1 : (kv.1 == teamKey (sideBIds relevant m)) = false := by
              exact beq_eq_false_iff_ne.mpr hB
            have hB2 : (teamKey (sideBIds relevant m) == kv.1) = false := by
              exact beq_eq_false_iff_ne.mpr fun h => hB h.symm
            simp [hA1, hA2, hB1, hB2, hpl, hwn, hls]
          · have hA1 : (kv.1 == teamKey (sideAIds relevant m)) = false := by
              exact beq_eq_false_iff_ne.mpr hA
            have hA2 : (teamKey (sideAIds relevant m) == kv.1) = false := by
              exact beq_eq_false_iff_ne.mpr fun h => hA h.symm
            have hB1 : (kv.1 == teamKey (sideBIds relevant m)) = true := by
              simp [hB]
            have hB2 : (teamKey (sideBIds relevant m) == kv.1) = true := by
              simp [hB.symm]
            simp [hA1, hA2, hB1, hB2, hpl, hwn, hls]
          · have hA1 : (kv.1 == teamKey (sideAIds relevant m)) = false := by
              exact beq_eq_false_iff_ne.mpr hA
            have hA2 : (teamKey (sideAIds relevant m) == kv.1) = false := by
              exact beq_eq_false_iff_ne.mpr fun h => hA h.symm
            have hB1 : (kv.1 == teamKey (sideBIds relevant m)) = false := by
              exact beq_eq_false_iff_ne.mpr hB
            have hB2 : (teamKey (sideBIds relevant m) == kv.1) = false := by
              exact beq_eq_false_iff_ne.mpr fun h => hB h.symm
            simp [hA1, hA2, hB1, hB2, hpl, hwn, hls]
      · rw [teamMatchUpdate_skip hEm]
        have hfil : (l ++ [m]).filter (eligibleMatch relevant) =
            l.filter (eligibleMatch relevant) := by
          rw [List.filter_append]
          simp [hEm]
        simp only [c8SpecStats, keyStream, playedCount, winsCount, lossesCount,
          hfil]

/-- C8 counterexample: a completed match whose side A has three
participants does contribute a (three-member) side-key, contrary to the
claim that only sides with exactly two members contribute. -/
theorem c8_counterexample :
    "u1+u2+u5" ∈ (calculateTeamStandings
      [⟨"m1", "completed", some 1, some "A"⟩]
      [⟨"m1", "u1", some "A", none, none, none, none⟩,
       ⟨"m1", "u2", some "A", none, none, none, none⟩,
       ⟨"m1", "u5", some "A", none, none, none, none⟩,
       ⟨"m1", "u3", some "B", none, none, none, none⟩,
       ⟨"m1", "u4", some "B", none, none, none, none⟩]
      []).map (fun ts => ts.team_key) := by decide

/-- C8 (amended): `calculateTeamStandings` groups the participants of each
completed match with a recorded winner into side-keys formed by sorting and
joining the user ids of a side, counting a match only when both sides have
at least two members (a side may have more than two members, all of whose
ids form the key); it accumulates played/wins/losses per unique pair key,
sets `winPct = round(wins/played*100)`, sorts by wins desc, losses asc,
winPct desc, and assigns 1-based ranks post-sort. -/
theorem c8_calculateTeamStandings_spec (ms : List RankingMatch)
    (ps : List RankingParticipant) (members : List RankingMember) :
    calculateTeamStandings ms ps members = c8SpecTeamStandings ms ps members := by
  rw [calculateTeamStandings, c8SpecTeamStandings, teamFold_eq_spec]

lemma jsRound_eq_round (q : ℚ) : jsRound q = round q := by
  rw [round_eq, jsRound]
  have hden : ((q.den : ℚ)) ≠ 0 := by
    exact_mod_cast q.den_nz
  have hq : q + 1/2 =
      ((2 * q.num + (q.den : ℤ) : ℤ) : ℚ) / ((2 * q.den : ℕ) : ℚ) := by
    conv_lhs => rw [← Rat.num_div_den q]
    push_cast
    field_simp
    ring
  rw [hq, Rat.floor_intCast_div_natCast]
  push_cast
  rfl

-- Toolkit for reading the embedded store after an update

section Toolkit

lemma single?_eq_iff {α : Type} {l : List α} {p : α → Bool} {x : α} :
    single? l p = some x ↔ l.filter p = [x] := by
  unfold single?
  rcases h : l.filter p with _ | ⟨y, _ | ⟨z, t⟩⟩ <;> simp

lemma single?_pred {α : Type} {l : List α} {p : α → Bool} {x : α}
    (h : single? l p = some x) : p x = true := by
  have hf := single?_eq_iff.mp h
  have hx : x ∈ l.filter p := by rw [hf]; exact List.mem_singleton_self x
  exact (List.mem_filter.mp hx).2

lemma single?_mem {α : Type} {l : List α} {p : α → Bool} {x : α}
    (h : single? l p = some x) : x ∈ l := by
  have hf := single?_eq_iff.mp h
  have hx : x ∈ l.filter p := by rw [hf]; exact List.mem_singleton_self x
  exact (List.mem_filter.mp hx).1

lemma single?_unique {α : Type} {l : List α} {p : α → Bool} {x a : α}
    (h : single? l p = some x) (ha : a ∈ l) (hpa : p a = true) : a = x := by
  have hf := single?_eq_iff.mp h
  have hx : a ∈ l.filter p := List.mem_filter.mpr ⟨ha, hpa⟩
  rw [hf] at hx
  exact List.mem_singleton.mp hx

lemma filter_map_comm {α : Type} (l : List α) (p : α → Bool) (g : α → α)
    (hp : ∀ a, p (g a) = p a) :
    (l.map g).filter p = (l.filter p).map g := by
  induction l with
  | nil => rfl
  | cons a t ih =>
      cases h : p a <;>
        simp [List.filter_cons, hp, h, ih]

lemma single?_map {α : Type} {l : List α} {p : α → Bool} {x : α} (g : α → α)
    (h : single? l p = some x) (hp : ∀ a, p (g a) = p a) :
    single? (l.map g) p = some (g x) := by
  rw [single?_eq_iff] at h ⊢
  rw [filter_map_comm l p g hp, h]
  rfl

lemma single?_append_new {α : Type} {l : List α} {p : α → Bool} {x : α}
    (h : ∀ b ∈ l, p b = false) (hx : p x = true) :
    single? (l ++ [x]) p = some x := by
  rw [single?_eq_iff, List.filter_append]
  have h0 : l.filter p = [] := by
    rw [List.filter_eq_nil_iff]
    intro a ha
    simp [h a ha]
  rw [h0]
  simp [hx]

end Toolkit

lemma jGet_setKey_self (l : List (String × JVal)) (k : String) (v : JVal) :
    jGet (setKey l k v) k = some v := by
  unfold setKey
  by_cases h : l.any (fun kv => kv.1 == k) = true
  · rw [if_pos h]
    induction l with
    | nil => simp at h
    | cons a t ih =>
        by_cases ha : (a.1 == k) = true
        · simp only [List.map_cons, if_pos ha, jGet]
          rw [List.find?_cons_of_pos _ (by simp)]
          rfl
        · have ht : t.any (fun kv => kv.1 == k) = true := by
            simpa [List.any_cons, ha] using h
          have ih2 := ih ht
          simp only [List.map_cons, if_neg ha, jGet] at ih2 ⊢
          rwa [List.find?_cons_of_neg _ (by simpa using ha)]
  · rw [if_neg h]
    have h0 : l.find? (fun kv => kv.1 == k) = none := by
      rw [List.find?_eq_none]
      intro a ha
      simp only [List.any_eq_true, not_exists, not_and] at h
      simp [h a ha]
    unfold jGet
    rw [List.find?_append, h0]
    rw [List.find?_cons_of_pos _ (by simp)]
    rfl

lemma find?_map_overwrite_ne (t : List (String × JVal)) (k k2 : String)
    (v : JVal) (hne : k2 ≠ k) :
    ((t.map fun kv => if kv.1 == k then (k, v) else kv).find?
        fun kv => kv.1 == k2) =
      t.find? fun kv => kv.1 == k2 := by
  induction t with
  | nil => rfl
  | cons a t ih =>
      simp only [List.map_cons]
      by_cases ha : (a.1 == k) = true
      · have haeq : a.1 = k := by simpa using ha
        have ha2 : (a.1 == k2) = false := by simp [haeq, Ne.symm hne]
        have hk2 : (k == k2) = false := by simp [Ne.symm hne]
        rw [if_pos ha]
        rw [List.find?_cons_of_neg _ (by simp [hk2])]
        rw [List.find?_cons_of_neg _ (by simp [ha2])]
        exact ih
      · rw [if_neg ha]
        by_cases ha2 : (a.1 == k2) = true
        · rw [List.find?_cons_of_pos _ (by simpa using ha2)]
          rw [List.find?_cons_of_pos _ (by simpa using ha2)]
        · rw [List.find?_cons_of_neg _ (by simpa using ha2)]
          rw [List.find?_cons_of_neg _ (by simpa using ha2)]
          exact ih

lemma jGet_setKey_ne (l : List (String × JVal)) (k k2 : String) (v : JVal)
    (hne : k2 ≠ k) : jGet (setKey l k v) k2 = jGet l k2 := by
  unfold setKey
  by_cases h : l.any (fun kv => kv.1 == k) = true
  · rw [if_pos h]
    unfold jGet
    rw [find?_map_overwrite_ne l k k2 v hne]
  · rw [if_neg h]
    unfold jGet
    rw [List.find?_append]
    have hk2 : (k == k2) = false := by simp [Ne.symm hne]
    have h1 : ([(k, v)].find? fun kv => kv.1 == k2) = none := by
      rw [List.find?_cons_of_neg _ (by simp [hk2])]
      rfl
    rw [h1]
    cases l.find? fun kv => kv.1 == k2 <;> rfl

lemma jGet_objMerge_notin (updates : List (String × JVal)) :
    ∀ (base : List (String × JVal)) (k : String),
      (∀ kv ∈ updates, kv.1 ≠ k) →
      jGet (objMerge base updates) k = jGet base k := by
  induction updates with
  | nil => intro base k _; rfl
  | cons u us ih =>
      intro base k h
      have hstep : objMerge base (u :: us) = objMerge (setKey base u.1 u.2) us := rfl
      rw [hstep, ih (setKey base u.1 u.2) k
        (fun kv hm => h kv (List.mem_cons_of_mem _ hm))]
      exact jGet_setKey_ne base u.1 k u.2 (fun he => h u (List.mem_cons_self _ _) he.symm)

lemma jGet_objMerge_last (base : List (String × JVal))
    (k1 k2 : String) (v1 v2 : JVal) :
    jGet (objMerge base [(k1, v1), (k2, v2)]) k2 = some v2 := by
  have hstep : objMerge base [(k1, v1), (k2, v2)] =
      setKey (setKey base k1 v1) k2 v2 := rfl
  rw [hstep]
  exact jGet_setKey_self _ k2 v2

/-- C4: a result submission with a non-empty payload on a non-terminal
fixture by a league member: an admin (owner/admin) submitter gets an
auto-accepted submission, the fixture finalized in the same call with
`metadata.final_result` set to the payload and `finalized = true` reported;
any other member gets a `pending` submission, `finalized = false`, and a
`scheduled` fixture moves to `submitted` (any other status is kept). -/
theorem c4_submitResult_spec
    (db : DB) (now : Nat) (fixtureId userId : String) (payloadRaw : JVal)
    (fixture : Fixture) (role : String)
    (hfx : getFixture db fixtureId = some fixture)
    (hrole : getLeagueRole db fixture.league_id userId = some role)
    (hfid : fixtureId ≠ "")
    (hpay : (asObject payloadRaw).length ≠ 0)
    (hterm1 : fixture.status ≠ "finalized")
    (hterm2 : fixture.status ≠ "cancelled")
    (hfresh : ∀ s ∈ db.submissions, s.id ≠ freshId db) :
    (isLeagueAdminRole (some role) = true →
      (submitResult db now fixtureId userId payloadRaw).2 =
        OpResult.submitOk (freshId db) true ∧
      submissionStatus (submitResult db now fixtureId userId payloadRaw).1
        (freshId db) = some "accepted" ∧
      fixtureStatus (submitResult db now fixtureId userId payloadRaw).1
        fixtureId = some "finalized" ∧
      (fixtureMetadata (submitResult db now fixtureId userId payloadRaw).1
          fixtureId).bind (fun md => jGet md "final_result") =
        some (JVal.obj (asObject payloadRaw))) ∧
    (isLeagueAdminRole (some role) = false →
      (submitResult db now fixtureId userId payloadRaw).2 =
        OpResult.submitOk (freshId db) false ∧
      submissionStatus (submitResult db now fixtureId userId payloadRaw).1
        (freshId db) = some "pending" ∧
      fixtureStatus (submitResult db now fixtureId userId payloadRaw).1
        fixtureId =
        some (if fixture.status = "scheduled" then "submitted"
          else fixture.status)) := by
  have hfid' : (fixtureId == "") = false := by simp [hfid]
  have hpay' : ((asObject payloadRaw).length == 0) = false := by simpa using hpay
  have hterm' : (fixture.status == "finalized" || fixture.status == "cancelled") = false := by
    simp [hterm1, hterm2]
  have hfx0 : single? db.fixtures (fun f => f.id == fixtureId) = some fixture := hfx
  have hfxid : (fixture.id == fixtureId) = true := by
    have h := single?_pred hfx0
    exact h
  have hsupid : ∀ a : Submission,
      ((if (a.fixture_id == fixtureId && a.submitted_by == userId &&
          a.status == "pending") = true then
        ({ a with status := "superseded" } : Submission) else a).id == freshId db) =
      (a.id == freshId db) := by
    intro a
    split <;> rfl
  have hids : ∀ b ∈ db.submissions.map fun s =>
      if (s.fixture_id == fixtureId && s.submitted_by == userId &&
          s.status == "pending") = true then
        ({ s with status := "superseded" } : Submission) else s,
      (b.id == freshId db) = false := by
    intro b hb
    obtain ⟨a, ha, rfl⟩ := List.mem_map.mp hb
    rw [hsupid a]
    simp [hfresh a ha]
  constructor
  · intro hadm
    have hp : ∀ a : Fixture,
        ((if (a.id == fixtureId) = true then
          ({ a with
              status := "finalized",
              metadata := objMerge fixture.metadata
                [("finalized_submission_id", JVal.prim (JPrim.str (freshId
                  { db with
                    submissions := db.submissions.map fun s =>
                      if (s.fixture_id == fixtureId && s.submitted_by == userId &&
                          s.status == "pending") = true then
                        ({ s with status := "superseded" } : Submission)
                      else s }))),
                 ("final_result", JVal.obj (asObject payloadRaw))] } : Fixture)
          else a).id == fixtureId) = (a.id == fixtureId) := by
      intro a
      split <;> rfl
    simp only [submitResult, hfid', hpay', hfx, hterm', hrole, hadm]
    simp only [Bool.false_eq_true, if_false, if_true, beq_self_eq_true, ite_true, ite_false]
    refine ⟨by simp [freshId], ?_, ?_, ?_⟩
    · simp only [submissionStatus, submissionById]
      rw [single?_append_new hids (by simp [freshId])]
      rfl
    · simp only [fixtureStatus, getFixture]
      rw [single?_map _ hfx0 hp]
      simp [hfxid]
    · simp only [fixtureMetadata, getFixture]
      rw [single?_map _ hfx0 hp]
      simp only [Option.map_some, hfxid, if_true, Option.bind_some]
      exact jGet_objMerge_last _ _ _ _ _
  · intro hadm
    by_cases hs : fixture.status = "scheduled"
    · have hs' : (fixture.status == "scheduled") = true := by simp [hs]
      have hp : ∀ a : Fixture,
          ((if (a.id == fixtureId) = true then
            ({ a with status := "submitted" } : Fixture) else a).id == fixtureId) =
          (a.id == fixtureId) := by
        intro a
        split <;> rfl
      simp only [submitResult, hfid', hpay', hfx, hterm', hrole, hadm, hs']
      simp only [Bool.false_eq_true, if_false, if_true, beq_self_eq_true,
        ite_true, ite_false, String.reduceBEq]
      refine ⟨by simp [freshId], ?_, ?_⟩
      · simp only [submissionStatus, submissionById]
        rw [single?_append_new hids (by simp [freshId])]
        rfl
      · simp only [fixtureStatus, getFixture]
        rw [single?_map _ hfx0 hp]
        simp [hfxid, hs]
    · have hs' : (fixture.status == "scheduled") = false := by simp [hs]
      simp only [submitResult, hfid', hpay', hfx, hterm', hrole, hadm, hs']
      simp only [Bool.false_eq_true, if_false, if_true, beq_self_eq_true,
        ite_true, ite_false, String.reduceBEq]
      refine ⟨by simp [freshId], ?_, ?_⟩
      · simp only [submissionStatus, submissionById]
        rw [single?_append_new hids (by simp [freshId])]
        rfl
      · simp only [fixtureStatus, getFixture]
        rw [hfx0]
        simp [hs]

lemma c2FinalizeCond_iff (sides : List String) (ss : Option String) :
    c2FinalizeCond sides ss ↔ confirmFinalizeRule sides ss = true := by
  have hc : ∀ x : String, sides.contains x = true ↔ x ∈ sides := by
    intro x
    exact List.elem_iff
  unfold c2FinalizeCond confirmFinalizeRule
  by_cases h1 : sides.contains "organizer" = true
  · simp [h1, (hc _).mp h1]
  · have h1' : "organizer" ∉ sides := fun hm => h1 ((hc _).mpr hm)
    match ss with
    | none => simp [h1', hc]
    | some s =>
        by_cases hA : s = "A"
        · subst hA
          simp [h1', hc]
        · by_cases hB : s = "B"
          · subst hB
            simp [h1', hc]
          · simp [h1', hc, hA, hB]

/-- C2: a `confirm` vote by a non-submitter league member with a resolvable
side on a pending submission finalizes the fixture (response
`finalized = true`, submission `accepted`, fixture `finalized`,
`metadata.final_result` = submission payload) exactly when the confirm votes
for the submission contain the organizer side, the side opposite a known
submitter side, or both sides when the submitter side is unknown; otherwise
the fixture only moves to `confirmed`, and only from
`submitted`/`confirmed`. -/
theorem c2_confirm_finalization
    (db : DB) (now : Nat) (fixtureId userId submissionId side : String)
    (reason : Option String)
    (fixture : Fixture) (role : String) (submission : Submission)
    (hfx : getFixture db fixtureId = some fixture)
    (hrole : getLeagueRole db fixture.league_id userId = some role)
    (hsub : single? db.submissions (fun s => s.id == submissionId) =
      some submission)
    (hsubfix : submission.fixture_id = fixtureId)
    (hnotown : submission.submitted_by ≠ userId)
    (hpending : submission.status = "pending")
    (hside : (if isLeagueAdminRole (some role) = true then some "organizer"
      else getFixtureSide db fixtureId userId) = some side)
    (hfid : fixtureId ≠ "") (hsid : submissionId ≠ "") :
    (((confirmResult db now fixtureId userId submissionId "confirm" reason).2 =
        OpResult.confirmOk true false ∧
      submissionStatus
        (confirmResult db now fixtureId userId submissionId "confirm" reason).1
        submissionId = some "accepted" ∧
      fixtureStatus
        (confirmResult db now fixtureId userId submissionId "confirm" reason).1
        fixtureId = some "finalized" ∧
      (fixtureMetadata
          (confirmResult db now fixtureId userId submissionId "confirm" reason).1
          fixtureId).bind (fun md => jGet md "final_result") =
        some (JVal.obj submission.payload)) ↔
      c2FinalizeCond
        ((((db.confirmations ++
            [({ submission_id := submissionId, fixture_id := fixtureId,
                confirmed_by := userId, confirming_side := side,
                decision := "confirm", reason := reason } : Confirmation)]).filter
              fun c => c.submission_id == submissionId).filter
              fun c => c.decision == "confirm").map
          fun c => c.confirming_side)
        (if submission.source == "participant" then
          getFixtureSide db fixtureId submission.submitted_by
         else none)) ∧
    (¬ c2FinalizeCond
        ((((db.confirmations ++
            [({ submission_id := submissionId, fixture_id := fixtureId,
                confirmed_by := userId, confirming_side := side,
                decision := "confirm", reason := reason } : Confirmation)]).filter
              fun c => c.submission_id == submissionId).filter
              fun c => c.decision == "confirm").map
          fun c => c.confirming_side)
        (if submission.source == "participant" then
          getFixtureSide db fixtureId submission.submitted_by
         else none) →
      (confirmResult db now fixtureId userId submissionId "confirm" reason).2 =
        OpResult.confirmOk false false ∧
      fixtureStatus
        (confirmResult db now fixtureId userId submissionId "confirm" reason).1
        fixtureId =
        some (if fixture.status = "submitted" ∨ fixture.status = "confirmed"
          then "confirmed" else fixture.status)) := by
  have hfid' : (fixtureId == "") = false := by simp [hfid]
  have hsid' : (submissionId == "") = false := by simp [hsid]
  have hfx0 : single? db.fixtures (fun f => f.id == fixtureId) = some fixture := hfx
  have hfxid : (fixture.id == fixtureId) = true := by
    have h := single?_pred hfx0
    exact h
  have hsubid : (submission.id == submissionId) = true := by
    have h := single?_pred hsub
    exact h
  have hsub0 : single? db.submissions
      (fun s => s.id == submissionId && s.fixture_id == fixtureId) =
      some submission := by
    rw [single?_eq_iff] at hsub ⊢
    have h1 : db.submissions.filter
        (fun s => s.id == submissionId && s.fixture_id == fixtureId) =
        (db.submissions.filter (fun s => s.id == submissionId)).filter
          (fun s => s.fixture_id == fixtureId) := by
      rw [List.filter_filter]
      exact List.filter_congr (fun a _ => Bool.and_comm _ _)
    rw [h1, hsub]
    simp [List.filter, hsubfix]
  have hown' : (submission.submitted_by == userId) = false := by simp [hnotown]
  have hpend' : (submission.status != "pending") = false := by simp [hpending]
  have hgf : getFixtureSide
      { db with confirmations := db.confirmations ++
        [({ submission_id := submissionId, fixture_id := fixtureId,
            confirmed_by := userId, confirming_side := side,
            decision := "confirm", reason := reason } : Confirmation)] }
      fixtureId submission.submitted_by =
      getFixtureSide db fixtureId submission.submitted_by := rfl
  simp only [confirmResult, hfid', hsid', hfx, hrole, hsub0, hown', hpend',
    hside, Bool.false_eq_true, if_false, if_true, ite_true, ite_false,
    String.reduceBEq, bne_self_eq_false, Bool.not_false, Bool.not_true, hgf]
  by_cases hF : confirmFinalizeRule
      ((((db.confirmations ++
          [({ submission_id := submissionId, fixture_id := fixtureId,
              confirmed_by := userId, confirming_side := side,
              decision := "confirm", reason := reason } : Confirmation)]).filter
            fun c => c.submission_id == submissionId).filter
            fun c => c.decision == "confirm").map
        fun c => c.confirming_side)
      (if (submission.source == "participant") = true then
        getFixtureSide db fixtureId submission.submitted_by
       else none) = true
  · simp only [hF, if_true, ite_true]
    have hpacc : ∀ a : Submission,
        ((if (a.id == submissionId) = true then
          ({ a with
              status := "accepted",
              reviewed_by := some userId,
              reviewed_at := some now } : Submission)
         else a).id == submissionId) = (a.id == submissionId) := by
      intro a
      split <;> rfl
    have hpfin : ∀ a : Fixture,
        ((if (a.id == fixtureId) = true then
          ({ a with
              status := "finalized",
              metadata := objMerge fixture.metadata
                [("finalized_submission_id", JVal.prim (JPrim.str submission.id)),
                 ("final_result", JVal.obj submission.payload)] } : Fixture)
         else a).id == fixtureId) = (a.id == fixtureId) := by
      intro a
      split <;> rfl
    constructor
    · apply iff_of_true
      · refine ⟨trivial, ?_, ?_, ?_⟩
        · simp only [submissionStatus, submissionById]
          rw [single?_map _ hsub hpacc]
          simp [hsubid]
        · simp only [fixtureStatus, getFixture]
          rw [single?_map _ hfx0 hpfin]
          simp [hfxid]
        · simp only [fixtureMetadata, getFixture]
          rw [single?_map _ hfx0 hpfin]
          simp only [Option.map_some, hfxid, if_true, Option.bind_some]
          exact jGet_objMerge_last _ _ _ _ _
      · exact (c2FinalizeCond_iff _ _).mpr hF
    · intro hn
      exact absurd ((c2FinalizeCond_iff _ _).mpr hF) hn
  · have hF' : confirmFinalizeRule
        ((((db.confirmations ++
            [({ submission_id := submissionId, fixture_id := fixtureId,
                confirmed_by := userId, confirming_side := side,
                decision := "confirm", reason := reason } : Confirmation)]).filter
              fun c => c.submission_id == submissionId).filter
              fun c => c.decision == "confirm").map
          fun c => c.confirming_side)
        (if (submission.source == "participant") = true then
          getFixtureSide db fixtureId submission.submitted_by
         else none) = false := by
      simpa using hF
    simp only [hF', Bool.false_eq_true, if_false, ite_false]
    have hpconf : ∀ a : Fixture,
        ((if (a.id == fixtureId &&
            (a.status == "submitted" || a.status == "confirmed")) = true then
          ({ a with status := "confirmed" } : Fixture)
         else a).id == fixtureId) = (a.id == fixtureId) := by
      intro a
      split <;> rfl
    constructor
    · apply iff_of_false
      · intro h
        exact absurd h.1 (by simp)
      · intro hc
        exact hF ((c2FinalizeCond_iff _ _).mp hc)
    · intro _
      refine ⟨trivial, ?_⟩
      simp only [fixtureStatus, getFixture]
      rw [single?_map _ hfx0 hpconf]
      by_cases hss : fixture.status = "submitted" ∨ fixture.status = "confirmed"
      · have hb : (fixture.status == "submitted" ||
            fixture.status == "confirmed") = true := by
          rcases hss with h | h <;> simp [h]
        simp [hfxid, hb, hss]
      · have hb : (fixture.status == "submitted" ||
            fixture.status == "confirmed") = false := by
          push_neg at hss
          simp [hss.1, hss.2]
        simp [hfxid, hb, hss]

/-- C4 witness: the admin path on the concrete store. -/
theorem c4_witness :
    (submitResult exDB 100 "f1" "adm" exPayloadA).2 =
      OpResult.submitOk (freshId exDB) true ∧
    submissionStatus (submitResult exDB 100 "f1" "adm" exPayloadA).1
      (freshId exDB) = some "accepted" ∧
    fixtureStatus (submitResult exDB 100 "f1" "adm" exPayloadA).1 "f1" =
      some "finalized" := by
  have h := c4_submitResult_spec exDB 100 "f1" "adm" exPayloadA
      ({ id := "f1", league_id := "lg", week_number := some 1,
         fixture_type := "league_match", status := "scheduled",
         metadata := [("origin", JVal.prim (JPrim.str "gen"))] } : Fixture)
      "owner" (by decide) (by decide) (by decide) (by decide) (by decide)
      (by decide) (by decide)
  have h2 := h.1 (by decide)
  exact ⟨h2.1, h2.2.1, h2.2.2.1⟩

/-- C2 witness: the opposite side confirming a participant submission on
the concrete store finalizes the fixture. -/
theorem c2_witness :
    (confirmResult (submitResult exDB 100 "f1" "u1" exPayloadA).1 150 "f1"
      "u2" "row-0" "confirm" none).2 = OpResult.confirmOk true false ∧
    fixtureStatus (confirmResult (submitResult exDB 100 "f1" "u1" exPayloadA).1
      150 "f1" "u2" "row-0" "confirm" none).1 "f1" = some "finalized" := by
  have h := c2_confirm_finalization
      (submitResult exDB 100 "f1" "u1" exPayloadA).1 150 "f1" "u2" "row-0" "B"
      none
      ({ id := "f1", league_id := "lg", week_number := some 1,
         fixture_type := "league_match", status := "submitted",
         metadata := [("origin", JVal.prim (JPrim.str "gen"))] } : Fixture)
      "member"
      ({ id := "row-0", fixture_id := "f1", submitted_by := "u1",
         source := "participant", status := "pending",
         payload := [("winner", JPrim.str "A")], reviewed_by := none,
         reviewed_at := none, review_note := none } : Submission)
      (by decide) (by decide) (by decide) (by decide) (by decide) (by decide)
      (by decide) (by decide) (by decide)
  have h2 := h.1.mpr (Or.inr (Or.inl ⟨by decide, by decide⟩))
  exact ⟨h2.1, h2.2.2.1⟩

/-- C10: session finalization replaces each paired time-trial fixture's
metadata wholesale with exactly the keys `finalized_session_id`,
`finalized_runs`, `best_elapsed_seconds` (discarding every previously
stored key) and finalizes it, leaving every other fixture untouched; by
contrast the result-workflow merge (`objMerge`) preserves every metadata
key it does not update. -/
theorem c10_finalizeSession_wholesale
    (db : DB) (now : Nat) (sessionId userId : String)
    (session : Session)
    (hsn : getSession db sessionId = some session)
    (hadmin : isLeagueAdminRole
      (getLeagueRole db session.league_id userId) = true)
    (hsid : sessionId ≠ "") :
    List.Forall₂ (c10WholesaleFrame session sessionId)
      db.fixtures (finalizeSession db now sessionId userId).1.fixtures ∧
    (∀ (base updates : List (String × JVal)) (k : String),
      k ∉ updates.map Prod.fst →
      jGet (objMerge base updates) k = jGet base k) := by
  have hsid' : (sessionId == "") = false := by simp [hsid]
  constructor
  · simp only [finalizeSession, hsid', hsn, hadmin, not_true, if_false,
      ite_false, Bool.false_eq_true, if_true, ite_true]
    rw [List.forall₂_map_right_iff]
    apply List.forall₂_same.mpr
    intro f hf
    unfold c10WholesaleFrame
    by_cases hm : sessionFixtureMatch session f = true
    · simp [hm, jGet, List.find?]
    · simp [hm]
  · intro base updates k hk
    refine jGet_objMerge_notin updates base k ?_
    intro kv hkv he
    exact hk (he ▸ List.mem_map_of_mem Prod.fst hkv)

/-- C10 witness: finalizing the concrete session wipes the generated
fixture's provenance metadata. -/
theorem c10_witness :
    List.Forall₂ (c10WholesaleFrame
      ({ id := "sn", league_id := "lg", week_number := some 1,
         status := "open", submission_deadline := none,
         distance_meters := some 5000 } : Session) "sn")
      exDB.fixtures (finalizeSession exDB 200 "sn" "adm").1.fixtures ∧
    (∀ (base updates : List (String × JVal)) (k : String),
      k ∉ updates.map Prod.fst →
      jGet (objMerge base updates) k = jGet base k) :=
  c10_finalizeSession_wholesale exDB 200 "sn" "adm"
    ({ id := "sn", league_id := "lg", week_number := some 1,
       status := "open", submission_deadline := none,
       distance_meters := some 5000 } : Session)
    (by decide) (by decide) (by decide)

lemma forall₂_fixmap (l : List Fixture) (g : Fixture → Fixture)
    (P : Fixture → Fixture → Prop) (h : ∀ f ∈ l, P f (g f)) :
    List.Forall₂ P l (l.map g) := by
  rw [List.forall₂_map_right_iff]
  exact List.forall₂_same.mpr h

/-- C6 counterexample: a run submission moves the paired time-trial
fixture from `confirmed` back to `submitted`, and a session upsert resets
it to `scheduled` - both backward steps. -/
theorem c6_counterexample :
    fixtureStatus exDB "ft" = some "confirmed" ∧
    fixtureStatus (submitRun exDB 50 "sn" "u1" (some 600) none none).1 "ft" =
      some "submitted" ∧
    fixtureStatus (upsertSession exDB "lg" "adm" 1 "open" none
      (some 5000)).1 "ft" = some "scheduled" ∧
    forwardStep "confirmed" "submitted" = false ∧
    forwardStep "confirmed" "scheduled" = false := by
  decide

/-- C6 (amended): the result workflow (submit, confirm, resolve) and
session finalization never move a fixture backward: when every fixture is
in a workflow status, each fixture's status stays, moves sideways into
`disputed`, or advances strictly up the
scheduled - submitted - confirmed - finalized chain.  (Run submission and
session upsert do move fixtures backward; see the counterexample.) -/
theorem c6_resultOps_forward
    (db : DB) (now : Nat)
    (hstat : ∀ f ∈ db.fixtures, f.status ∈ workflowStatuses)
    (fid1 uid1 : String) (pay1 : JVal)
    (fid2 uid2 sid2 dec2 : String) (reason2 : Option String)
    (fid3 uid3 sid3 : String) (pay3 : JVal) (reason3 : String)
    (sid4 uid4 : String) :
    List.Forall₂ (fun f f2 => forwardStep f.status f2.status = true)
      db.fixtures (submitResult db now fid1 uid1 pay1).1.fixtures ∧
    List.Forall₂ (fun f f2 => forwardStep f.status f2.status = true)
      db.fixtures
      (confirmResult db now fid2 uid2 sid2 dec2 reason2).1.fixtures ∧
    List.Forall₂ (fun f f2 => forwardStep f.status f2.status = true)
      db.fixtures (resolveResult db now fid3 uid3 sid3 pay3 reason3).1.fixtures ∧
    List.Forall₂ (fun f f2 => forwardStep f.status f2.status = true)
      db.fixtures (finalizeSession db now sid4 uid4).1.fixtures := by
  have hsame : ∀ f ∈ db.fixtures, forwardStep f.status f.status = true := by
    intro f _
    simp [forwardStep]
  have hrefl : List.Forall₂ (fun f f2 => forwardStep f.status f2.status = true)
      db.fixtures db.fixtures := List.forall₂_same.mpr hsame
  have hfinal : ∀ f ∈ db.fixtures, forwardStep f.status "finalized" = true := by
    intro f hf
    have h := hstat f hf
    simp only [workflowStatuses, List.mem_cons, List.not_mem_nil, or_false] at h
    rcases h with h | h | h | h | h <;> (rw [h]; decide)
  refine ⟨?_, ?_, ?_, ?_⟩
  · -- submitResult
    simp only [submitResult]
    by_cases h1 : (fid1 == "") = true
    · simp only [h1, ite_true]
      exact hrefl
    · have h1' : (fid1 == "") = false := by simpa using h1
      simp only [h1', Bool.false_eq_true, if_false, ite_false]
      by_cases h2 : ((asObject pay1).length == 0) = true
      · simp only [h2, ite_true]
        exact hrefl
      · have h2' : ((asObject pay1).length == 0) = false := by simpa using h2
        simp only [h2', Bool.false_eq_true, if_false, ite_false]
        cases hfx : getFixture db fid1 with
        | none =>
            simp only [hfx]
            exact hrefl
        | some fixture =>
            simp only [hfx]
            by_cases h3 : (fixture.status == "finalized" ||
                fixture.status == "cancelled") = true
            · simp only [h3, ite_true]
              exact hrefl
            · have h3' : (fixture.status == "finalized" ||
                  fixture.status == "cancelled") = false := by simpa using h3
              simp only [h3', Bool.false_eq_true, if_false, ite_false]
              cases hrole : getLeagueRole db fixture.league_id uid1 with
              | none =>
                  simp only [hrole]
                  exact hrefl
              | some role =>
                  simp only [hrole]
                  by_cases hadm : isLeagueAdminRole (some role) = true
                  · simp only [hadm, ite_true, if_true]
                    simp only [String.reduceBEq, beq_self_eq_true, ite_true]
                    refine forall₂_fixmap db.fixtures _ _ ?_
                    intro f hf
                    by_cases hid : (f.id == fid1) = true
                    · rw [if_pos hid]
                      exact hfinal f hf
                    · rw [if_neg hid]
                      exact hsame f hf
                  · have hadm' : isLeagueAdminRole (some role) = false := by
                      simpa using hadm
                    simp only [hadm', Bool.false_eq_true, if_false, ite_false]
                    simp only [String.reduceBEq, Bool.false_eq_true, if_false,
                      ite_false]
                    by_cases hsch : (fixture.status == "scheduled") = true
                    · simp only [hsch, ite_true]
                      refine forall₂_fixmap db.fixtures _ _ ?_
                      intro f hf
                      by_cases hid : (f.id == fid1) = true
                      · rw [if_pos hid]
                        have hfeq : f = fixture := single?_unique hfx hf hid
                        have hss : f.status = "scheduled" := by
                          rw [hfeq]
                          simpa using hsch
                        rw [hss]
                        simp [forwardStep, chainRank]
                      · rw [if_neg hid]
                        exact hsame f hf
                    · have hsch' : (fixture.status == "scheduled") = false := by
                        simpa using hsch
                      simp only [hsch', Bool.false_eq_true, if_false, ite_false]
                      exact hrefl
  · -- confirmResult
    simp only [confirmResult]
    by_cases h1 : (fid2 == "") = true
    · simp only [h1, ite_true]
      exact hrefl
    · have h1' : (fid2 == "") = false := by simpa using h1
      simp only [h1', Bool.false_eq_true, if_false, ite_false]
      by_cases h2 : (sid2 == "") = true
      · simp only [h2, ite_true]
        exact hrefl
      · have h2' : (sid2 == "") = false := by simpa using h2
        simp only [h2', Bool.false_eq_true, if_false, ite_false]
        cases hfx : getFixture db fid2 with
        | none =>
            simp only [hfx]
            exact hrefl
        | some fixture =>
            simp only [hfx]
            cases hrole : getLeagueRole db fixture.league_id uid2 with
            | none =>
                simp only [hrole]
                exact hrefl
            | some role =>
                simp only [hrole]
                cases hsub : single? db.submissions
                    (fun s => s.id == sid2 && s.fixture_id == fid2) with
                | none =>
                    simp only [hsub]
                    exact hrefl
                | some submission =>
                    simp only [hsub]
                    by_cases h3 : (submission.submitted_by == uid2) = true
                    · simp only [h3, ite_true]
                      exact hrefl
                    · have h3' : (submission.submitted_by == uid2) = false := by
                        simpa using h3
                      simp only [h3', Bool.false_eq_true, if_false, ite_false]
                      by_cases h4 : (submission.status != "pending") = true
                      · simp only [h4, ite_true]
                        exact hrefl
                      · have h4' : (submission.status != "pending") = false := by
                          simpa using h4
                        simp only [h4', Bool.false_eq_true, if_false, ite_false]
                        cases hside : (if isLeagueAdminRole (some role) = true
                            then some "organizer"
                            else getFixtureSide db fid2 uid2) with
                        | none =>
                            simp only [hside]
                            exact hrefl
                        | some side =>
                            simp only [hside]
                            by_cases h5 : ((if (dec2 == "reject") = true then
                                "reject" else "confirm") == "reject") = true
                            · simp only [h5, ite_true]
                              refine forall₂_fixmap db.fixtures _ _ ?_
                              intro f hf
                              by_cases hid : (f.id == fid2) = true
                              · rw [if_pos hid]
                                simp [forwardStep]
                              · rw [if_neg hid]
                                exact hsame f hf
                            · have h5' : ((if (dec2 == "reject") = true then
                                  "reject" else "confirm") == "reject") = false := by
                                simpa using h5
                              simp only [h5', Bool.false_eq_true, if_false,
                                ite_false]
                              by_cases h6 : confirmFinalizeRule
                                  (((({ db with confirmations :=
                                    db.confirmations ++
                                    [{ submission_id := sid2, fixture_id := fid2,
                                       confirmed_by := uid2,
                                       confirming_side := side,
                                       decision := if (dec2 == "reject") = true
                                         then "reject" else "confirm",
                                       reason := reason2 }] } : DB).confirmations.filter
                                      fun c => c.submission_id == sid2).filter
                                      fun c => c.decision == "confirm").map
                                    fun c => c.confirming_side)
                                  (if (submission.source == "participant") = true
                                    then getFixtureSide
                                      ({ db with confirmations :=
                                        db.confirmations ++
                                        [{ submission_id := sid2,
                                           fixture_id := fid2,
                                           confirmed_by := uid2,
                                           confirming_side := side,
                                           decision := if (dec2 == "reject") = true
                                             then "reject" else "confirm",
                                           reason := reason2 }] } : DB)
                                      fid2 submission.submitted_by
                                    else none) = true
                              · simp only [h6, ite_true]
                                refine forall₂_fixmap db.fixtures _ _ ?_
                                intro f hf
                                by_cases hid : (f.id == fid2) = true
                                · rw [if_pos hid]
                                  exact hfinal f hf
                                · rw [if_neg hid]
                                  exact hsame f hf
                              · have h6' := eq_false_of_ne_true h6
                                simp only [h6', Bool.false_eq_true, if_false,
                                  ite_false]
                                refine forall₂_fixmap db.fixtures _ _ ?_
                                intro f hf
                                by_cases hid : (f.id == fid2 &&
                                    (f.status == "submitted" ||
                                     f.status == "confirmed")) = true
                                · rw [if_pos hid]
                                  have hs : (f.status == "submitted" ||
                                      f.status == "confirmed") = true := by
                                    simp only [Bool.and_eq_true] at hid
                                    exact hid.2
                                  have : f.status = "submitted" ∨
                                      f.status = "confirmed" := by
                                    simpa using hs
                                  rcases this with h | h <;>
                                    (rw [h]; simp [forwardStep, chainRank])
                                · rw [if_neg hid]
                                  exact hsame f hf
  · -- resolveResult
    simp only [resolveResult]
    by_cases h1 : (fid3 == "") = true
    · simp only [h1, ite_true]
      exact hrefl
    · have h1' : (fid3 == "") = false := by simpa using h1
      simp only [h1', Bool.false_eq_true, if_false, ite_false]
      cases hfx : getFixture db fid3 with
      | none =>
          simp only [hfx]
          exact hrefl
      | some fixture =>
          simp only [hfx]
          by_cases hadm : isLeagueAdminRole
              (getLeagueRole db fixture.league_id uid3) = true
          · simp only [hadm, not_true, if_false, ite_false, if_true, ite_true]
            by_cases hs3 : (sid3 != "") = true
            · simp only [hs3, ite_true]
              cases hsub : single? db.submissions
                  (fun s => s.id == sid3 && s.fixture_id == fid3) with
              | none =>
                  simp only [hsub, hs3, ite_true]
                  exact hrefl
              | some sub =>
                  simp only [hsub]
                  refine forall₂_fixmap db.fixtures _ _ ?_
                  intro f hf
                  by_cases hid : (f.id == fid3) = true
                  · rw [if_pos hid]
                    exact hfinal f hf
                  · rw [if_neg hid]
                    exact hsame f hf
            · have hs3' : (sid3 != "") = false := by simpa using hs3
              simp only [hs3', Bool.false_eq_true, if_false, ite_false]
              by_cases hpl : ((asObject pay3).length == 0) = true
              · simp only [hpl, ite_true]
                exact hrefl
              · have hpl' : ((asObject pay3).length == 0) = false := by
                  simpa using hpl
                simp only [hpl', Bool.false_eq_true, if_false, ite_false]
                refine forall₂_fixmap db.fixtures _ _ ?_
                intro f hf
                by_cases hid : (f.id == fid3) = true
                · rw [if_pos hid]
                  exact hfinal f hf
                · rw [if_neg hid]
                  exact hsame f hf
          · have hadm' := eq_false_of_ne_true hadm
            simp only [hadm', Bool.false_eq_true, not_false_eq_true, if_true,
              ite_true]
            exact hrefl
  · -- finalizeSession
    simp only [finalizeSession]
    by_cases h1 : (sid4 == "") = true
    · simp only [h1, ite_true]
      exact hrefl
    · have h1' : (sid4 == "") = false := by simpa using h1
      simp only [h1', Bool.false_eq_true, if_false, ite_false]
      cases hsn : getSession db sid4 with
      | none =>
          simp only [hsn]
          exact hrefl
      | some session =>
          simp only [hsn]
          by_cases hadm : isLeagueAdminRole
              (getLeagueRole db session.league_id uid4) = true
          · simp only [hadm, not_true, if_false, ite_false]
            refine forall₂_fixmap db.fixtures _ _ ?_
            intro f hf
            by_cases hm : sessionFixtureMatch session f = true
            · rw [if_pos hm]
              exact hfinal f hf
            · rw [if_neg hm]
              exact hsame f hf
          · have hadm' := eq_false_of_ne_true hadm
            simp only [hadm', Bool.false_eq_true, not_false_eq_true, if_true,
              ite_true]
            exact hrefl

/-- C6 witness: the four forward-only operations on the concrete store. -/
theorem c6_witness :
    List.Forall₂ (fun f f2 => forwardStep f.status f2.status = true)
      exDB.fixtures (submitResult exDB 100 "f1" "adm" exPayloadA).1.fixtures ∧
    List.Forall₂ (fun f f2 => forwardStep f.status f2.status = true)
      exDB.fixtures
      (confirmResult exDB 100 "f1" "u2" "row-0" "confirm" none).1.fixtures ∧
    List.Forall₂ (fun f f2 => forwardStep f.status f2.status = true)
      exDB.fixtures
      (resolveResult exDB 100 "f1" "adm" "" exPayloadB "r").1.fixtures ∧
    List.Forall₂ (fun f f2 => forwardStep f.status f2.status = true)
      exDB.fixtures (finalizeSession exDB 100 "sn" "adm").1.fixtures :=
  c6_resultOps_forward exDB 100 (by decide) "f1" "adm" exPayloadA
    "f1" "u2" "row-0" "confirm" none "f1" "adm" "" exPayloadB "r" "sn" "adm"

lemma countP_map_single_flip {α : Type} [DecidableEq α] (l : List α)
    (key : α → String) (hnd : (l.map key).Nodup) (x : α) (hx : x ∈ l)
    (g : α → α) (p : α → Bool)
    (hg : ∀ a ∈ l, key a ≠ key x → p (g a) = false)
    (hpx : p (g x) = true) :
    (l.map g).countP p = 1 := by
  have hq : ∀ a ∈ l, p (g a) = (a == x) := by
    intro a ha
    by_cases he : a = x
    · subst he
      simp [hpx]
    · have hk : key a ≠ key x :=
        fun hk => he (List.inj_on_of_nodup_map hnd ha hx hk)
      simp [hg a ha hk, he]
  calc (l.map g).countP p = l.countP (fun a => p (g a)) :=
        countP_map_pred g p l
    _ = l.countP (fun a => a == x) := countP_congr_mem hq
    _ = 1 := List.count_eq_one_of_mem (hnd.of_map _) hx

lemma countP_map_append_new {α : Type} (l : List α) (x : α) (g : α → α)
    (p : α → Bool) (hz : ∀ a ∈ l, p (g a) = false) (hx : p (g x) = true) :
    ((l ++ [x]).map g).countP p = 1 := by
  rw [List.map_append, List.countP_append]
  have h0 : (l.map g).countP p = 0 := by
    rw [List.countP_eq_zero]
    intro b hb
    obtain ⟨a, ha, rfl⟩ := List.mem_map.mp hb
    simp [hz a ha]
  rw [h0]
  simp [hx]

/-- C5 counterexample: a fixture disputed by a reject vote after an
earlier admin auto-accept is resolved to `finalized` but with TWO accepted
submissions - the earlier accepted row is not superseded. -/
theorem c5_counterexample :
    fixtureStatus (confirmResult (submitResult (submitResult exDB 100 "f1"
      "u1" exPayloadA).1 110 "f1" "adm" exPayloadB).1 120 "f1" "u2" "row-0"
      "reject" none).1 "f1" = some "disputed" ∧
    (resolveResult (confirmResult (submitResult (submitResult exDB 100 "f1"
      "u1" exPayloadA).1 110 "f1" "adm" exPayloadB).1 120 "f1" "u2" "row-0"
      "reject" none).1 130 "f1" "adm" "" exPayloadA "fix").2 =
      OpResult.resolveOk "row-2" ∧
    fixtureStatus (resolveResult (confirmResult (submitResult (submitResult
      exDB 100 "f1" "u1" exPayloadA).1 110 "f1" "adm" exPayloadB).1 120 "f1"
      "u2" "row-0" "reject" none).1 130 "f1" "adm" "" exPayloadA "fix").1
      "f1" = some "finalized" ∧
    countAccepted (resolveResult (confirmResult (submitResult (submitResult
      exDB 100 "f1" "u1" exPayloadA).1 110 "f1" "adm" exPayloadB).1 120 "f1"
      "u2" "row-0" "reject" none).1 130 "f1" "adm" "" exPayloadA "fix").1
      "f1" = 2 := by
  decide

/-- C5 (amended): when the fixture has no accepted submission yet,
a successful admin resolve (named submission or inline payload) leaves the
fixture `finalized` with exactly one accepted submission and no
pending/rejected submission of the fixture remaining. -/
theorem c5_resolve_spec
    (db : DB) (now : Nat) (fixtureId userId submissionId : String)
    (payloadRaw : JVal) (reasonRaw : String)
    (fixture : Fixture)
    (hfx : getFixture db fixtureId = some fixture)
    (hadmin : isLeagueAdminRole
      (getLeagueRole db fixture.league_id userId) = true)
    (hfid : fixtureId ≠ "")
    (hzero : countAccepted db fixtureId = 0)
    (hids : (db.submissions.map (fun s => s.id)).Nodup)
    (hfresh : ∀ s ∈ db.submissions, s.id ≠ freshId db)
    (hok : if submissionId ≠ "" then
        ∃ sub, single? db.submissions
          (fun s => s.id == submissionId && s.fixture_id == fixtureId) =
          some sub
      else (asObject payloadRaw).length ≠ 0) :
    fixtureStatus (resolveResult db now fixtureId userId submissionId
      payloadRaw reasonRaw).1 fixtureId = some "finalized" ∧
    countAccepted (resolveResult db now fixtureId userId submissionId
      payloadRaw reasonRaw).1 fixtureId = 1 ∧
    ∀ s ∈ (resolveResult db now fixtureId userId submissionId payloadRaw
      reasonRaw).1.submissions, s.fixture_id = fixtureId →
      s.status ≠ "pending" ∧ s.status ≠ "rejected" := by
  have hfid' : (fixtureId == "") = false := by simp [hfid]
  have hfx0 : single? db.fixtures (fun f => f.id == fixtureId) =
      some fixture := hfx
  have hfxid : (fixture.id == fixtureId) = true := by
    have h := single?_pred hfx0
    exact h
  have hzero' : db.submissions.countP
      (fun s => s.fixture_id == fixtureId && s.status == "accepted") = 0 :=
    hzero
  have hznone : ∀ a ∈ db.submissions,
      (a.fixture_id == fixtureId && a.status == "accepted") = false := by
    intro a ha
    simpa using List.countP_eq_zero.mp hzero' a ha
  by_cases hs : (submissionId != "") = true
  · -- a named existing submission is force-accepted
    have hsne : submissionId ≠ "" := by simpa using hs
    rw [if_pos hsne] at hok
    obtain ⟨sub, hsub⟩ := hok
    have hsubm := single?_mem hsub
    have hsubp : (sub.id == submissionId && sub.fixture_id == fixtureId) =
        true := by
      have h := single?_pred hsub
      exact h
    have hsubid : sub.id = submissionId := by
      simp only [Bool.and_eq_true, beq_iff_eq] at hsubp
      exact hsubp.1
    have hsubfix : sub.fixture_id = fixtureId := by
      simp only [Bool.and_eq_true, beq_iff_eq] at hsubp
      exact hsubp.2
    simp only [resolveResult, hfid', hfx, hadmin, not_true, if_false,
      ite_false, Bool.false_eq_true, hs, if_true, ite_true, hsub]
    refine ⟨?_, ?_, ?_⟩
    · simp only [fixtureStatus, getFixture]
      rw [single?_map _ hfx0 ?hp]
      case hp =>
        intro a
        split <;> rfl
      simp [hfxid]
    · simp only [countAccepted, List.map_map]
      refine countP_map_single_flip db.submissions (fun s => s.id) hids sub
        hsubm _ _ ?hg ?hpx
      case hg =>
        intro a ha hne
        have hne' : a.id ≠ sub.id := hne
        have haid : (a.id == submissionId) = false := by
          rw [hsubid] at hne'
          simp [hne']
        simp only [Function.comp_apply, haid, Bool.false_eq_true, if_false,
          ite_false]
        split
        · simp
        · simpa using hznone a ha
      case hpx =>
        have hsid2 : (sub.id == submissionId) = true := by simp [hsubid]
        simp only [Function.comp_apply, hsid2, if_true, ite_true]
        simp [hsubfix]
    · simp only [List.map_map]
      intro s hsmem hsfix
      obtain ⟨a, ha, rfl⟩ := List.mem_map.mp hsmem
      revert hsfix
      simp only [Function.comp_apply]
      by_cases haid : (a.id == submissionId) = true
      · have haeq : a = sub := by
          refine List.inj_on_of_nodup_map hids ha hsubm ?_
          simp only [beq_iff_eq] at haid
          rw [haid, hsubid]
        subst haeq
        have hbne : (a.id != a.id) = false := by simp
        simp only [haid, if_true, ite_true]
        intro _
        split
        · simp
        · simp
      · simp only [haid, Bool.false_eq_true, if_false, ite_false]
        split
        · intro _
          simp
        · rename_i hcond
          intro hafix
          have hcondF := eq_false_of_ne_true hcond
          have hx : (a.fixture_id == fixtureId) = true := by simp [hafix]
          have hane : a.id ≠ sub.id := by
            intro he
            rw [he, hsubid] at haid
            simp at haid
          have hbne : (a.id != sub.id) = true := by simp [hane]
          rw [hx, hbne] at hcondF
          simp only [Bool.true_and] at hcondF
          have := Bool.or_eq_false_iff.mp hcondF
          constructor
          · intro he
            rw [he] at this
            simp at this
          · intro he
            rw [he] at this
            simp at this
  · -- an inline payload is inserted as a fresh accepted submission
    have hs' : (submissionId != "") = false := by simpa using hs
    have hseq : submissionId = "" := by simpa using hs'
    have h0 : ¬ (submissionId ≠ "") := by simp [hseq]
    rw [if_neg h0] at hok
    have hpl' : ((asObject payloadRaw).length == 0) = false := by
      simpa using hok
    simp only [resolveResult, hfid', hfx, hadmin, not_true, if_false,
      ite_false, Bool.false_eq_true, hs', hpl']
    refine ⟨?_, ?_, ?_⟩
    · simp only [fixtureStatus, getFixture]
      rw [single?_map _ hfx0 ?hp]
      case hp =>
        intro a
        split <;> rfl
      simp [hfxid]
    · simp only [countAccepted]
      refine countP_map_append_new db.submissions _ _ _ ?hz ?hx
      case hz =>
        intro a ha
        split
        · simp
        · simpa using hznone a ha
      case hx =>
        simp
    · intro s hsmem hsfix
      revert hsfix
      obtain ⟨a, ha, rfl⟩ := List.mem_map.mp hsmem
      rcases List.mem_append.mp ha with hal | hax
      · by_cases hc : (a.fixture_id == fixtureId &&
            a.id != freshId db &&
            (a.status == "pending" || a.status == "rejected")) = true
        · rw [if_pos hc]
          intro _
          simp
        · rw [if_neg hc]
          intro hafix
          have hcondF := eq_false_of_ne_true hc
          have hx : (a.fixture_id == fixtureId) = true := by simp [hafix]
          have hbne : (a.id != freshId db) = true := by
            simp [hfresh a hal]
          rw [hx, hbne] at hcondF
          simp only [Bool.true_and] at hcondF
          have := Bool.or_eq_false_iff.mp hcondF
          constructor
          · intro he
            rw [he] at this
            simp at this
          · intro he
            rw [he] at this
            simp at this
      · have hax' : a = ({
            id := freshId db,
            fixture_id := fixtureId,
            submitted_by := userId,
            source := "organizer",
            status := "accepted",
            payload := asObject payloadRaw,
            reviewed_by := some userId,
            reviewed_at := some now,
            review_note := if (reasonRaw.trim == "") = true then none
              else some reasonRaw.trim } : Submission) := by
          simpa using hax
        subst hax'
        simp

/-- C5 witness: resolving the concrete disputed fixture reached by a
reject vote. -/
theorem c5_witness :
    fixtureStatus (resolveResult (confirmResult (submitResult exDB 100 "f1"
      "u1" exPayloadA).1 120 "f1" "u2" "row-0" "reject" none).1 130 "f1"
      "adm" "row-0" (JVal.prim JPrim.null) "fix").1 "f1" = some "finalized" ∧
    countAccepted (resolveResult (confirmResult (submitResult exDB 100 "f1"
      "u1" exPayloadA).1 120 "f1" "u2" "row-0" "reject" none).1 130 "f1"
      "adm" "row-0" (JVal.prim JPrim.null) "fix").1 "f1" = 1 ∧
    ∀ s ∈ (resolveResult (confirmResult (submitResult exDB 100 "f1" "u1"
      exPayloadA).1 120 "f1" "u2" "row-0" "reject" none).1 130 "f1" "adm"
      "row-0" (JVal.prim JPrim.null) "fix").1.submissions,
      s.fixture_id = "f1" → s.status ≠ "pending" ∧ s.status ≠ "rejected" := by
  have h := c5_resolve_spec
      (confirmResult (submitResult exDB 100 "f1" "u1" exPayloadA).1 120 "f1"
        "u2" "row-0" "reject" none).1 130 "f1" "adm" "row-0"
      (JVal.prim JPrim.null) "fix"
      ({ id := "f1", league_id := "lg", week_number := some 1,
         fixture_type := "league_match", status := "disputed",
         metadata := [("origin", JVal.prim (JPrim.str "gen"))] } : Fixture)
      (by decide) (by decide) (by decide) (by decide) (by decide) (by decide)
      (by
        rw [if_pos (show ("row-0" : String) ≠ "" by decide)]
        refine ⟨({
            id := "row-0",
            fixture_id := "f1",
            submitted_by := "u1",
            source := "participant",
            status := "rejected",
            payload := [("winner", JPrim.str "A")],
            reviewed_by := some "u2",
            reviewed_at := some 120,
            review_note := none } : Submission), ?_⟩
        decide)
  exact h

lemma count_zero_of_not_finalized (db : DB) (hinv : accInv db) {fid : String}
    {fixture : Fixture} (hmem : fixture ∈ db.fixtures)
    (hid : fixture.id = fid) (hst : fixture.status ≠ "finalized") :
    countAccepted db fid = 0 := by
  by_contra h
  exact hst ((hinv fid).2 (Nat.one_le_iff_ne_zero.mpr h) fixture hmem hid)

lemma countP_eq_of_pointwise {α : Type} (l : List α) (g : α → α)
    (p : α → Bool) (h : ∀ a ∈ l, p (g a) = p a) :
    (l.map g).countP p = l.countP p := by
  rw [countP_map_pred]
  exact countP_congr_mem h

lemma accInv_accept_finalize (db : DB) (S2 : List Submission)
    (F2 : List Fixture) (fid0 : String)
    (hinv : accInv db)
    (hzero0 : countAccepted db fid0 = 0)
    (hS : ∀ fid : String, S2.countP (accP fid) =
      countAccepted db fid + (if fid = fid0 then 1 else 0))
    (hF : ∀ f2 ∈ F2, ∃ f ∈ db.fixtures, f2.id = f.id ∧
      ((f.id ≠ fid0 ∧ f2.status = f.status) ∨
        (f.id = fid0 ∧ f2.status = "finalized"))) :
    ∀ fid : String, S2.countP (accP fid) ≤ 1 ∧
      (1 ≤ S2.countP (accP fid) →
        ∀ f2 ∈ F2, f2.id = fid → f2.status = "finalized") := by
  intro fid
  by_cases hf : fid = fid0
  · subst hf
    have hcnt : S2.countP (accP fid) = 1 := by
      rw [hS fid, hzero0, if_pos rfl]
    constructor
    · rw [hcnt]
    · intro _ f2 hf2 heq
      obtain ⟨f, hfm, hid, hdis⟩ := hF f2 hf2
      rcases hdis with ⟨hne, _⟩ | ⟨_, hfin⟩
      · have h3 : f.id = fid := by
          rw [← hid]
          exact heq
        exact absurd h3 hne
      · exact hfin
  · have hcnt : S2.countP (accP fid) = countAccepted db fid := by
      rw [hS fid, if_neg hf]
      omega
    constructor
    · rw [hcnt]
      exact (hinv fid).1
    · intro h1 f2 hf2 heq
      rw [hcnt] at h1
      obtain ⟨f, hfm, hid, hdis⟩ := hF f2 hf2
      have hfid : f.id = fid := by
        rw [← hid]
        exact heq
      rcases hdis with ⟨_, hst⟩ | ⟨hf0, _⟩
      · rw [hst]
        exact (hinv fid).2 h1 f hfm hfid
      · rw [hfid] at hf0
        exact absurd hf0 hf
  
lemma accInv_frame (db : DB) (S2 : List Submission) (F2 : List Fixture)
    (hinv : accInv db)
    (hS : ∀ fid : String, S2.countP (accP fid) = countAccepted db fid)
    (hF : ∀ f2 ∈ F2, ∃ f ∈ db.fixtures, f2.id = f.id ∧
      (f2.status = f.status ∨ countAccepted db f.id = 0)) :
    ∀ fid : String, S2.countP (accP fid) ≤ 1 ∧
      (1 ≤ S2.countP (accP fid) →
        ∀ f2 ∈ F2, f2.id = fid → f2.status = "finalized") := by
  intro fid
  constructor
  · rw [hS fid]
    exact (hinv fid).1
  · intro h1 f2 hf2 heq
    rw [hS fid] at h1
    obtain ⟨f, hfm, hid, hdis⟩ := hF f2 hf2
    have hfid : f.id = fid := by
      rw [← hid]
      exact heq
    rcases hdis with hst | hz
    · rw [hst]
      exact (hinv fid).2 h1 f hfm hfid
    · rw [hfid] at hz
      rw [hz] at h1
      exact absurd h1 (by omega)

lemma accP_not_accepted (fid : String) (a b : Submission)
    (hfixeq : b.fixture_id = a.fixture_id)
    (hsa : a.status ≠ "accepted") (hsb : b.status ≠ "accepted") :
    accP fid b = accP fid a := by
  have hb : (b.status == "accepted") = false := by simp [hsb]
  have ha : (a.status == "accepted") = false := by simp [hsa]
  simp [accP, hfixeq, hb, ha]

lemma submitResult_accInv
    (db : DB) (now : Nat)
    (hinv : accInv db)
    (fid1 uid1 : String) (pay1 : JVal) :
    accInv (submitResult db now fid1 uid1 pay1).1 := by
  simp only [submitResult]
  by_cases h1 : (fid1 == "") = true
  · simp only [h1, ite_true]
    exact hinv
  · have h1' : (fid1 == "") = false := by simpa using h1
    simp only [h1', Bool.false_eq_true, if_false, ite_false]
    by_cases h2 : ((asObject pay1).length == 0) = true
    · simp only [h2, ite_true]
      exact hinv
    · have h2' : ((asObject pay1).length == 0) = false := by simpa using h2
      simp only [h2', Bool.false_eq_true, if_false, ite_false]
      cases hfx : getFixture db fid1 with
      | none =>
          simp only [hfx]
          exact hinv
      | some fixture =>
          simp only [hfx]
          by_cases h3 : (fixture.status == "finalized" ||
              fixture.status == "cancelled") = true
          · simp only [h3, ite_true]
            exact hinv
          · have h3' : (fixture.status == "finalized" ||
                fixture.status == "cancelled") = false := by simpa using h3
            simp only [h3', Bool.false_eq_true, if_false, ite_false]
            have hfmem : fixture ∈ db.fixtures := single?_mem hfx
            have hfid1 : fixture.id = fid1 := by
              have h := single?_pred hfx
              simpa using h
            have hnot : fixture.status ≠ "finalized" := by
              intro he
              rw [he] at h3'
              simp at h3'
            have hz := count_zero_of_not_finalized db hinv hfmem hfid1 hnot
            cases hrole : getLeagueRole db fixture.league_id uid1 with
            | none =>
                simp only [hrole]
                exact hinv
            | some role =>
                simp only [hrole]
                by_cases hadm : isLeagueAdminRole (some role) = true
                · simp only [hadm, ite_true, if_true]
                  simp only [String.reduceBEq, beq_self_eq_true, ite_true]
                  refine accInv_accept_finalize db _ _ fid1 hinv hz ?_ ?_
                  · intro fid
                    rw [List.countP_append,
                      countP_eq_of_pointwise db.submissions _ _ ?hpt]
                    case hpt =>
                      intro a _
                      split
                      · rename_i hc
                        simp only [Bool.and_eq_true, beq_iff_eq] at hc
                        exact accP_not_accepted fid a _ rfl
                          (by rw [hc.2]; decide) (by simp)
                      · rfl
                    by_cases hf : fid = fid1
                    · subst hf
                      simp [accP, countAccepted, List.countP_cons]
                    · have hne : (fid1 == fid) = false := by
                        simp [Ne.symm hf]
                      rw [if_neg hf]
                      simp [accP, countAccepted, List.countP_cons, hne]
                  · intro f2 hf2
                    obtain ⟨f, hf, rfl⟩ := List.mem_map.mp hf2
                    refine ⟨f, hf, ?_, ?_⟩
                    · split <;> rfl
                    · by_cases hc : (f.id == fid1) = true
                      · refine Or.inr ⟨by simpa using hc, ?_⟩
                        rw [if_pos hc]
                      · refine Or.inl ⟨by simpa using hc, ?_⟩
                        rw [if_neg hc]
                · have hadm' : isLeagueAdminRole (some role) = false := by
                    simpa using hadm
                  simp only [hadm', Bool.false_eq_true, if_false, ite_false]
                  simp only [String.reduceBEq, Bool.false_eq_true, if_false,
                    ite_false]
                  by_cases hsch : (fixture.status == "scheduled") = true
                  · simp only [hsch, ite_true]
                    refine accInv_frame db _ _ hinv ?_ ?_
                    · intro fid
                      rw [List.countP_append,
                        countP_eq_of_pointwise db.submissions _ _ ?hpt]
                      case hpt =>
                        intro a _
                        split
                        · rename_i hc
                          simp only [Bool.and_eq_true, beq_iff_eq] at hc
                          exact accP_not_accepted fid a _ rfl
                            (by rw [hc.2]; decide) (by simp)
                        · rfl
                      simp [accP, countAccepted, List.countP_cons]
                    · intro f2 hf2
                      obtain ⟨f, hf, rfl⟩ := List.mem_map.mp hf2
                      refine ⟨f, hf, ?_, ?_⟩
                      · split <;> rfl
                      · by_cases hc : (f.id == fid1) = true
                        · refine Or.inr ?_
                          have : f.id = fid1 := by simpa using hc
                          rw [this]
                          exact hz
                        · refine Or.inl ?_
                          rw [if_neg hc]
                  · have hsch' : (fixture.status == "scheduled") = false := by
                      simpa using hsch
                    simp only [hsch', Bool.false_eq_true, if_false, ite_false]
                    refine accInv_frame db _ _ hinv ?_ ?_
                    · intro fid
                      rw [List.countP_append,
                        countP_eq_of_pointwise db.submissions _ _ ?hpt]
                      case hpt =>
                        intro a _
                        split
                        · rename_i hc
                          simp only [Bool.and_eq_true, beq_iff_eq] at hc
                          exact accP_not_accepted fid a _ rfl
                            (by rw [hc.2]; decide) (by simp)
                        · rfl
                      simp [accP, countAccepted, List.countP_cons]
                    · intro f2 hf2
                      exact ⟨f2, hf2, rfl, Or.inl rfl⟩

lemma confirmResult_accInv
    (db : DB) (now : Nat)
    (hinv : accInv db)
    (hids : (db.submissions.map (fun s => s.id)).Nodup)
    (fid2 uid2 sid2 dec2 : String) (reason2 : Option String)
    (hnotfin : fixtureStatus db fid2 ≠ some "finalized") :
    accInv (confirmResult db now fid2 uid2 sid2 dec2 reason2).1 := by
  simp only [confirmResult]
  by_cases h1 : (fid2 == "") = true
  · simp only [h1, ite_true]
    exact hinv
  · have h1' : (fid2 == "") = false := by simpa using h1
    simp only [h1', Bool.false_eq_true, if_false, ite_false]
    by_cases h2 : (sid2 == "") = true
    · simp only [h2, ite_true]
      exact hinv
    · have h2' : (sid2 == "") = false := by simpa using h2
      simp only [h2', Bool.false_eq_true, if_false, ite_false]
      cases hfx : getFixture db fid2 with
      | none =>
          simp only [hfx]
          exact hinv
      | some fixture =>
          simp only [hfx]
          have hfmem : fixture ∈ db.fixtures := single?_mem hfx
          have hfid2 : fixture.id = fid2 := by
            have h := single?_pred hfx
            simpa using h
          have hnot : fixture.status ≠ "finalized" := by
            intro he
            apply hnotfin
            simp [fixtureStatus, hfx, he]
          have hz := count_zero_of_not_finalized db hinv hfmem hfid2 hnot
          cases hrole : getLeagueRole db fixture.league_id uid2 with
          | none =>
              simp only [hrole]
              exact hinv
          | some role =>
              simp only [hrole]
              cases hsub : single? db.submissions
                  (fun s => s.id == sid2 && s.fixture_id == fid2) with
              | none =>
                  simp only [hsub]
                  exact hinv
              | some submission =>
                  simp only [hsub]
                  have hsubmem : submission ∈ db.submissions :=
                    single?_mem hsub
                  have hsubp : (submission.id == sid2 &&
                      submission.fixture_id == fid2) = true := by
                    have h := single?_pred hsub
                    exact h
                  have hsubid : submission.id = sid2 := by
                    simp only [Bool.and_eq_true, beq_iff_eq] at hsubp
                    exact hsubp.1
                  have hsubfix : submission.fixture_id = fid2 := by
                    simp only [Bool.and_eq_true, beq_iff_eq] at hsubp
                    exact hsubp.2
                  by_cases h3 : (submission.submitted_by == uid2) = true
                  · simp only [h3, ite_true]
                    exact hinv
                  · have h3' : (submission.submitted_by == uid2) = false := by
                      simpa using h3
                    simp only [h3', Bool.false_eq_true, if_false, ite_false]
                    by_cases h4 : (submission.status != "pending") = true
                    · simp only [h4, ite_true]
                      exact hinv
                    · have h4' : (submission.status != "pending") = false := by
                        simpa using h4
                      have hpend : submission.status = "pending" := by
                        simpa using h4'
                      simp only [h4', Bool.false_eq_true, if_false, ite_false]
                      cases hside : (if isLeagueAdminRole (some role) = true
                          then some "organizer"
                          else getFixtureSide db fid2 uid2) with
                      | none =>
                          simp only [hside]
                          exact hinv
                      | some side =>
                          simp only [hside]
                          by_cases h5 : ((if (dec2 == "reject") = true then
                              "reject" else "confirm") == "reject") = true
                          · simp only [h5, ite_true]
                            refine accInv_frame db _ _ hinv ?_ ?_
                            · intro fid
                              rw [countP_eq_of_pointwise db.submissions _ _
                                ?hpt]
                              case hpt =>
                                intro a ha
                                split
                                · rename_i hc
                                  have haeq : a = submission := by
                                    refine List.inj_on_of_nodup_map hids ha
                                      hsubmem ?_
                                    have : a.id = sid2 := by simpa using hc
                                    rw [this, hsubid]
                                  exact accP_not_accepted fid a _ rfl
                                    (by rw [haeq, hpend]; decide) (by simp)
                                · rfl
                            · intro f2 hf2
                              obtain ⟨f, hf, rfl⟩ := List.mem_map.mp hf2
                              refine ⟨f, hf, ?_, ?_⟩
                              · split <;> rfl
                              · by_cases hc : (f.id == fid2) = true
                                · refine Or.inr ?_
                                  have : f.id = fid2 := by simpa using hc
                                  rw [this]
                                  exact hz
                                · refine Or.inl ?_
                                  rw [if_neg hc]
                          · have h5' : ((if (dec2 == "reject") = true then
                                "reject" else "confirm") == "reject") =
                                false := by
                              simpa using h5
                            simp only [h5', Bool.false_eq_true, if_false,
                              ite_false]
                            by_cases h6 : confirmFinalizeRule
                                (((({ db with confirmations :=
                                  db.confirmations ++
                                  [{ submission_id := sid2,
                                     fixture_id := fid2,
                                     confirmed_by := uid2,
                                     confirming_side := side,
                                     decision := if (dec2 == "reject") = true
                                       then "reject" else "confirm",
                                     reason := reason2 }] } :
                                  DB).confirmations.filter
                                    fun c => c.submission_id == sid2).filter
                                    fun c => c.decision == "confirm").map
                                  fun c => c.confirming_side)
                                (if (submission.source == "participant") = true
                                  then getFixtureSide
                                    ({ db with confirmations :=
                                      db.confirmations ++
                                      [{ submission_id := sid2,
                                         fixture_id := fid2,
                                         confirmed_by := uid2,
                                         confirming_side := side,
                                         decision :=
                                           if (dec2 == "reject") = true
                                           then "reject" else "confirm",
                                         reason := reason2 }] } : DB)
                                    fid2 submission.submitted_by
                                  else none) = true
                            · simp only [h6, ite_true]
                              refine accInv_accept_finalize db _ _ fid2 hinv
                                hz ?_ ?_
                              · intro fid
                                by_cases hf : fid = fid2
                                · subst hf
                                  rw [if_pos rfl, hz, Nat.zero_add]
                                  refine countP_map_single_flip db.submissions
                                    (fun s => s.id) hids submission hsubmem
                                    _ _ ?hg ?hpx
                                  case hg =>
                                    intro a ha hne
                                    have hne' : a.id ≠ submission.id := hne
                                    rw [hsubid] at hne'
                                    have haid : (a.id == sid2) = false := by
                                      simp [hne']
                                    simp only [haid, Bool.false_eq_true,
                                      if_false, ite_false]
                                    simpa using List.countP_eq_zero.mp hz a ha
                                  case hpx =>
                                    have hsid2 : (submission.id == sid2) =
                                        true := by simp [hsubid]
                                    simp only [hsid2, if_true, ite_true]
                                    simp [accP, hsubfix]
                                · rw [if_neg hf, Nat.add_zero]
                                  rw [countP_eq_of_pointwise db.submissions
                                    _ _ ?hpt]
                                  case hpt =>
                                    intro a ha
                                    split
                                    · rename_i hc
                                      have haeq : a = submission := by
                                        refine List.inj_on_of_nodup_map hids
                                          ha hsubmem ?_
                                        have : a.id = sid2 := by simpa using hc
                                        rw [this, hsubid]
                                      have hfidne : (a.fixture_id == fid) =
                                          false := by
                                        rw [haeq, hsubfix]
                                        simp [Ne.symm hf]
                                      simp [accP, hfidne]
                                    · rfl
                              · intro f2 hf2
                                obtain ⟨f, hf, rfl⟩ := List.mem_map.mp hf2
                                refine ⟨f, hf, ?_, ?_⟩
                                · split <;> rfl
                                · by_cases hc : (f.id == fid2) = true
                                  · refine Or.inr ⟨by simpa using hc, ?_⟩
                                    rw [if_pos hc]
                                  · refine Or.inl ⟨by simpa using hc, ?_⟩
                                    rw [if_neg hc]
                            · have h6' := eq_false_of_ne_true h6
                              simp only [h6', Bool.false_eq_true, if_false,
                                ite_false]
                              refine accInv_frame db _ _ hinv ?_ ?_
                              · intro fid
                                rfl
                              · intro f2 hf2
                                obtain ⟨f, hf, rfl⟩ := List.mem_map.mp hf2
                                refine ⟨f, hf, ?_, ?_⟩
                                · split <;> rfl
                                · by_cases hc : (f.id == fid2 &&
                                      (f.status == "submitted" ||
                                       f.status == "confirmed")) = true
                                  · refine Or.inr ?_
                                    have hcid : f.id = fid2 := by
                                      simp only [Bool.and_eq_true,
                                        beq_iff_eq] at hc
                                      exact hc.1
                                    rw [hcid]
                                    exact hz
                                  · refine Or.inl ?_
                                    rw [if_neg hc]

lemma resolveResult_accInv
    (db : DB) (now : Nat)
    (hinv : accInv db)
    (hids : (db.submissions.map (fun s => s.id)).Nodup)
    (fid3 uid3 sid3 : String) (pay3 : JVal) (reason3 : String)
    (hnotfin : fixtureStatus db fid3 ≠ some "finalized") :
    accInv (resolveResult db now fid3 uid3 sid3 pay3 reason3).1 := by
  simp only [resolveResult]
  by_cases h1 : (fid3 == "") = true
  · simp only [h1, ite_true]
    exact hinv
  · have h1' : (fid3 == "") = false := by simpa using h1
    simp only [h1', Bool.false_eq_true, if_false, ite_false]
    cases hfx : getFixture db fid3 with
    | none =>
        simp only [hfx]
        exact hinv
    | some fixture =>
        simp only [hfx]
        have hfmem : fixture ∈ db.fixtures := single?_mem hfx
        have hfid3 : fixture.id = fid3 := by
          have h := single?_pred hfx
          simpa using h
        have hnot : fixture.status ≠ "finalized" := by
          intro he
          apply hnotfin
          simp [fixtureStatus, hfx, he]
        have hz := count_zero_of_not_finalized db hinv hfmem hfid3 hnot
        by_cases hadm : isLeagueAdminRole
            (getLeagueRole db fixture.league_id uid3) = true
        · simp only [hadm, not_true, if_false, ite_false, if_true, ite_true]
          by_cases hs3 : (sid3 != "") = true
          · simp only [hs3, ite_true]
            cases hsub : single? db.submissions
                (fun s => s.id == sid3 && s.fixture_id == fid3) with
            | none =>
                simp only [hsub, hs3, ite_true]
                exact hinv
            | some sub =>
                simp only [hsub]
                have hsubmem : sub ∈ db.submissions := single?_mem hsub
                have hsubp : (sub.id == sid3 && sub.fixture_id == fid3) =
                    true := by
                  have h := single?_pred hsub
                  exact h
                have hsubid : sub.id = sid3 := by
                  simp only [Bool.and_eq_true, beq_iff_eq] at hsubp
                  exact hsubp.1
                have hsubfix : sub.fixture_id = fid3 := by
                  simp only [Bool.and_eq_true, beq_iff_eq] at hsubp
                  exact hsubp.2
                refine accInv_accept_finalize db _ _ fid3 hinv hz ?_ ?_
                · intro fid
                  rw [List.map_map]
                  by_cases hf : fid = fid3
                  · subst hf
                    rw [if_pos rfl, hz, Nat.zero_add]
                    refine countP_map_single_flip db.submissions
                      (fun s => s.id) hids sub hsubmem _ _ ?hg ?hpx
                    case hg =>
                      intro a ha hne
                      have hne' : a.id ≠ sub.id := hne
                      rw [hsubid] at hne'
                      have haid : (a.id == sid3) = false := by simp [hne']
                      simp only [Function.comp_apply, haid,
                        Bool.false_eq_true, if_false, ite_false]
                      split
                      · simp [accP]
                      · simpa using List.countP_eq_zero.mp hz a ha
                    case hpx =>
                      have hsid3 : (sub.id == sid3) = true := by
                        simp [hsubid]
                      simp only [Function.comp_apply, hsid3, if_true,
                        ite_true]
                      simp [accP, hsubfix]
                  · rw [if_neg hf, Nat.add_zero]
                    rw [countP_eq_of_pointwise db.submissions _ _ ?hpt]
                    case hpt =>
                      intro a ha
                      simp only [Function.comp_apply]
                      by_cases haid : (a.id == sid3) = true
                      · have haeq : a = sub := by
                          refine List.inj_on_of_nodup_map hids ha hsubmem ?_
                          have : a.id = sid3 := by simpa using haid
                          rw [this, hsubid]
                        simp only [haid, if_true, ite_true]
                        have hfidne : (a.fixture_id == fid) = false := by
                          rw [haeq, hsubfix]
                          simp [Ne.symm hf]
                        split
                        · simp [accP, hfidne]
                        · simp [accP, hfidne]
                      · simp only [haid, Bool.false_eq_true, if_false,
                          ite_false]
                        split
                        · rename_i hc
                          simp only [Bool.and_eq_true] at hc
                          have hor : a.status = "pending" ∨
                              a.status = "rejected" := by
                            simpa using hc.2
                          refine accP_not_accepted fid a _ rfl ?_ (by simp)
                          rcases hor with h | h <;> (rw [h]; decide)
                        · rfl
                · intro f2 hf2
                  obtain ⟨f, hf, rfl⟩ := List.mem_map.mp hf2
                  refine ⟨f, hf, ?_, ?_⟩
                  · split <;> rfl
                  · by_cases hc : (f.id == fid3) = true
                    · refine Or.inr ⟨by simpa using hc, ?_⟩
                      rw [if_pos hc]
                    · refine Or.inl ⟨by simpa using hc, ?_⟩
                      rw [if_neg hc]
          · have hs3' : (sid3 != "") = false := by simpa using hs3
            simp only [hs3', Bool.false_eq_true, if_false, ite_false]
            by_cases hpl : ((asObject pay3).length == 0) = true
            · simp only [hpl, ite_true]
              exact hinv
            · have hpl' : ((asObject pay3).length == 0) = false := by
                simpa using hpl
              simp only [hpl', Bool.false_eq_true, if_false, ite_false]
              refine accInv_accept_finalize db _ _ fid3 hinv hz ?_ ?_
              · intro fid
                by_cases hf : fid = fid3
                · subst hf
                  rw [if_pos rfl, hz, Nat.zero_add]
                  refine countP_map_append_new db.submissions _ _ _ ?hz2 ?hx2
                  case hz2 =>
                    intro a ha
                    split
                    · simp [accP]
                    · simpa using List.countP_eq_zero.mp hz a ha
                  case hx2 =>
                    simp [accP]
                · rw [if_neg hf, Nat.add_zero]
                  rw [List.map_append, List.countP_append,
                    countP_eq_of_pointwise db.submissions _ _ ?hpt]
                  case hpt =>
                    intro a ha
                    split
                    · rename_i hc
                      simp only [Bool.and_eq_true] at hc
                      have hor : a.status = "pending" ∨
                          a.status = "rejected" := by
                        simpa using hc.2
                      refine accP_not_accepted fid a _ rfl ?_ (by simp)
                      rcases hor with h | h <;> (rw [h]; decide)
                    · rfl
                  have hnewF : (fid3 == fid) = false := by
                    simp [Ne.symm hf]
                  simp [List.countP_cons, List.map_cons, accP, hnewF,
                    countAccepted]
              · intro f2 hf2
                obtain ⟨f, hf, rfl⟩ := List.mem_map.mp hf2
                refine ⟨f, hf, ?_, ?_⟩
                · split <;> rfl
                · by_cases hc : (f.id == fid3) = true
                  · refine Or.inr ⟨by simpa using hc, ?_⟩
                    rw [if_pos hc]
                  · refine Or.inl ⟨by simpa using hc, ?_⟩
                    rw [if_neg hc]
        · have hadm' := eq_false_of_ne_true hadm
          simp only [hadm', Bool.false_eq_true, not_false_eq_true, if_true,
            ite_true]
          exact hinv

/-- C3 counterexample: resolving an already-finalized fixture (after an
admin auto-accept) yields a second accepted submission for it. -/
theorem c3_counterexample :
    countAccepted (resolveResult (submitResult exDB 100 "f1" "adm"
      exPayloadA).1 150 "f1" "adm" "" exPayloadB "because").1 "f1" = 2 := by
  decide

/-- C3 (amended): with unique submission ids, each of submit, confirm and
resolve preserves the invariant "every fixture has at most one accepted
submission, and one accepted submission implies the fixture is finalized" -
provided confirm and resolve are not invoked against an already-finalized
fixture (the counterexample shows the side condition is necessary). -/
theorem c3_accepted_invariant
    (db : DB) (now : Nat)
    (hinv : accInv db)
    (hids : (db.submissions.map (fun s => s.id)).Nodup)
    (fid1 uid1 : String) (pay1 : JVal)
    (fid2 uid2 sid2 dec2 : String) (reason2 : Option String)
    (fid3 uid3 sid3 : String) (pay3 : JVal) (reason3 : String) :
    accInv (submitResult db now fid1 uid1 pay1).1 ∧
    (fixtureStatus db fid2 ≠ some "finalized" →
      accInv (confirmResult db now fid2 uid2 sid2 dec2 reason2).1) ∧
    (fixtureStatus db fid3 ≠ some "finalized" →
      accInv (resolveResult db now fid3 uid3 sid3 pay3 reason3).1) :=
  ⟨submitResult_accInv db now hinv fid1 uid1 pay1,
   fun h => confirmResult_accInv db now hinv hids fid2 uid2 sid2 dec2
     reason2 h,
   fun h => resolveResult_accInv db now hinv hids fid3 uid3 sid3 pay3
     reason3 h⟩

/-- C3 witness: the invariant preservation instantiated on the concrete
store. -/
theorem c3_witness :
    accInv (submitResult exDB 100 "f1" "adm" exPayloadA).1 ∧
    (fixtureStatus exDB "f1" ≠ some "finalized" →
      accInv (confirmResult exDB 100 "f1" "u2" "row-0" "confirm" none).1) ∧
    (fixtureStatus exDB "f1" ≠ some "finalized" →
      accInv (resolveResult exDB 100 "f1" "adm" "" exPayloadB "r").1) := by
  refine c3_accepted_invariant exDB 100 ?_ ?_ "f1" "adm" exPayloadA
    "f1" "u2" "row-0" "confirm" none "f1" "adm" "" exPayloadB "r"
  · intro fid
    have hc : countAccepted exDB fid = 0 := rfl
    constructor
    · rw [hc]
      decide
    · intro h1
      rw [hc] at h1
      exact absurd h1 (by decide)
  · exact List.nodup_nil
